import Mathlib

/-
Verification of the PS5 Backport library (`Backport.py`, class `PS5ELFProcessor`).

Shallow embedding conventions:
- a file's bytes are a `List Nat` (each entry a byte value as read by Python);
- a file name (its basename, which is what every name-based check in the code
  inspects) is a `List Char`;
- a directory is a `List PFile` in enumeration order (`os.walk` order); paths on
  a real filesystem are distinct, so list entries model distinct paths;
- Python's `bytes.replace` (replace all non-overlapping occurrences, scanning
  left to right) is `pyReplace`; Python's `pattern in content` is `containsSub`;
- I/O exceptions are modelled by an explicit per-file `PatchFault` oracle:
  `outerExc` is an exception raised while reading the file (or copying the
  backup), `innerExc` is an exception raised inside the inner try block
  (during write or verification read), with `leftover` the on-disk bytes at the
  moment the exception fires;
- the out-of-scope collaborators (SDK version patcher, fake signer, decrypter)
  are oracle parameters (`Collab`), exactly the interface the orchestrator
  consumes.
-/

/-- Python `bytes.replace` when the search pattern is nonempty: scan left to
right; on a match emit the replacement, silently consume the rest of the
matched pattern (the `skip` counter), and resume scanning after it; otherwise
keep the byte.  Structural recursion on the list so the kernel can evaluate it. -/
def pyReplaceAux (p r : List Nat) : Nat → List Nat → List Nat
  | _, [] => []
  | Nat.succ k, _ :: t => pyReplaceAux p r k t
  | 0, b :: t =>
    if p.isPrefixOf (b :: t) then r ++ pyReplaceAux p r (p.length - 1) t
    else b :: pyReplaceAux p r 0 t

/-- Python `content.replace(p, r)` on bytes, including the empty-pattern edge
case (`b"ab".replace(b"", b"X") == b"XaXbX"`). -/
def pyReplace (p r s : List Nat) : List Nat :=
  if p.isEmpty then r ++ s.flatMap (fun c => c :: r)
  else pyReplaceAux p r 0 s

theorem pyReplaceAux_skip (p r : List Nat) (k : Nat) (t : List Nat) :
    pyReplaceAux p r k t = pyReplaceAux p r 0 (t.drop k) := by
  induction t generalizing k with
  | nil => cases k <;> rfl
  | cons b t ih =>
    cases k with
    | zero => rfl
    | succ k => simpa [pyReplaceAux] using ih k

/-- Unfolding equation in the shape of the Python scan: on a match the scan
resumes `p.length` positions further on. -/
theorem pyReplaceAux_pos (p r : List Nat) (b : Nat) (t : List Nat)
    (hne : p ≠ []) (hp : p.isPrefixOf (b :: t) = true) :
    pyReplaceAux p r 0 (b :: t) = r ++ pyReplaceAux p r 0 ((b :: t).drop p.length) := by
  have h1 : pyReplaceAux p r 0 (b :: t) = r ++ pyReplaceAux p r (p.length - 1) t := by
    simp [pyReplaceAux, hp]
  rw [h1, pyReplaceAux_skip]
  have hlen : p.length ≠ 0 := by simpa using hne
  have : (b :: t).drop p.length = t.drop (p.length - 1) := by
    cases hL : p.length with
    | zero => exact absurd hL hlen
    | succ n => simp
  rw [this]

theorem pyReplaceAux_neg (p r : List Nat) (b : Nat) (t : List Nat)
    (hp : ¬ p.isPrefixOf (b :: t) = true) :
    pyReplaceAux p r 0 (b :: t) = b :: pyReplaceAux p r 0 t := by
  simp [pyReplaceAux, hp]

/-- Python `p in s` on bytes: some position of `s` starts with `p`. -/
def containsSub (p : List Nat) : List Nat → Bool
  | [] => p.isEmpty
  | b :: t => p.isPrefixOf (b :: t) || containsSub p t

theorem containsSub_iff (p s : List Nat) : containsSub p s = true ↔ p <:+: s := by
  induction s with
  | nil =>
    simp [containsSub, List.isEmpty_iff, List.infix_nil]
  | cons b t ih =>
    simp only [containsSub, Bool.or_eq_true, ih, List.isPrefixOf_iff_prefix]
    rw [ List.infix_cons_iff]

/-- Model of a file: basename and byte content. -/
structure PFile where
  name : List Char
  content : List Nat
deriving DecidableEq

/-- The reserved backup suffix checked by `_is_elf_file` / `_is_self_file` and
by the enumeration loops (`filename.endswith('.bak')`). -/
def bakSuffix : List Char := ['.', 'b', 'a', 'k']

/-- The `.revert_bak` suffix used by `revert_libc_patch` for its backups. -/
def revertBakSuffix : List Char := ['.', 'r', 'e', 'v', 'e', 'r', 't', '_', 'b', 'a', 'k']

/-- First SELF magic accepted by `_is_self_file`. -/
def selfMagic1 : List Nat := [0x4F, 0x15, 0x3D, 0x1D]

/-- Second SELF magic accepted by `_is_self_file`. -/
def selfMagic2 : List Nat := [0x54, 0x14, 0xF5, 0xEE]

/-- ELF magic accepted by `_is_elf_file` (`b'\x7FELF'`). -/
def elfMagic : List Nat := [0x7F, 0x45, 0x4C, 0x46]

/-- `PS5ELFProcessor._is_self_file`: reject names ending in `.bak`, otherwise
compare the first 4 bytes with either SELF magic.  (`f.read(4)` on a shorter
file returns fewer bytes, hence `take 4`.) -/
def isSelfFile (f : PFile) : Bool :=
  if bakSuffix.isSuffixOf f.name then false
  else f.content.take 4 == selfMagic1 || f.content.take 4 == selfMagic2

/-- `PS5ELFProcessor._is_elf_file`: reject names ending in `.bak`, otherwise
compare the first 4 bytes with the ELF magic. -/
def isElfFile (f : PFile) : Bool :=
  if bakSuffix.isSuffixOf f.name then false
  else f.content.take 4 == elfMagic

/-- The fixed auxiliary library filename (`'libc.prx'`), compared against
`filename.lower()`. -/
def libcName : List Char := ['l', 'i', 'b', 'c', '.', 'p', 'r', 'x']

/-- Lower-cased basename, mirroring Python `filename.lower()` for ASCII names. -/
def lowerName (f : PFile) : List Char := f.name.map Char.toLower

/-- The target set enumerated by `apply_libc_patch` / `revert_libc_patch` /
`check_libc_patch_status`: first every SELF file (the first `os.walk` loop,
which skips `.bak` names and applies `_is_self_file`), then every file whose
lower-cased name is `libc.prx` that is not already in the SELF list (the second
loop; with distinct paths, `file_path not in self_files` is `¬ isSelfFile`). -/
def patchTargets (dir : List PFile) : List PFile :=
  dir.filter (fun f => isSelfFile f)
    ++ dir.filter (fun f => lowerName f == libcName && !isSelfFile f)

/-- Membership predicate of `patchTargets`. -/
def isPatchTarget (f : PFile) : Bool :=
  isSelfFile f || lowerName f == libcName

/-- The target set enumerated by the downgrade loop of `downgrade_and_sign`
(`.bak` names skipped, then `_is_elf_file`). -/
def elfTargets (dir : List PFile) : List PFile :=
  dir.filter (fun f => isElfFile f)

/-- `PS5ELFProcessor.LIBC_PATCH_PATTERN = b'4h6F1LLbTiw#A#B'`. -/
def LIBC_PATCH_PATTERN : List Nat :=
  [52, 104, 54, 70, 49, 76, 76, 98, 84, 105, 119, 35, 65, 35, 66]

/-- `PS5ELFProcessor.LIBC_PATCH_REPLACEMENT = b'IWIBBdTHit4#A#B'`. -/
def LIBC_PATCH_REPLACEMENT : List Nat :=
  [73, 87, 73, 66, 66, 100, 84, 72, 105, 116, 52, 35, 65, 35, 66]

/-- Per-file I/O fault oracle for a patch/revert step. -/
inductive PatchFault where
  | ok
  | innerExc (msg : String) (leftover : List Nat)
  | outerExc (msg : String)
deriving DecidableEq

/-- Outcome of processing one file: resulting on-disk bytes, the `status`
string recorded in `results['files']`, and the `message` string. -/
structure FileOutcome where
  newContent : List Nat
  status : String
  message : String
deriving DecidableEq

/-- The per-file body of `PS5ELFProcessor.apply_libc_patch` (lines 296-411).
With `create_backup`, a failed verification or an inner exception restores the
backup copy (the pre-apply bytes); without it the file keeps whatever was on
disk.  An outer exception (initial read, or the backup copy itself) leaves the
file untouched and records an `error` entry. -/
def applyLibcFile (createBackup : Bool) (searchPattern replacementPattern : List Nat)
    (content : List Nat) (fault : PatchFault) : FileOutcome :=
  match fault with
  | .outerExc msg => ⟨content, "error", "Error reading file: " ++ msg⟩
  | f =>
    if containsSub searchPattern content then
      if containsSub replacementPattern content then
        ⟨content, "already_patched", "File already contains replacement pattern"⟩
      else
        match f with
        | .innerExc msg leftover =>
          ⟨if createBackup then content else leftover, "error",
            "Error during patching: " ++ msg⟩
        | _ =>
          let patched := pyReplace searchPattern replacementPattern content
          if !containsSub searchPattern patched && containsSub replacementPattern patched then
            ⟨patched, "applied", "Patch applied successfully"⟩
          else
            ⟨if createBackup then content else patched, "failed", "Patch verification failed"⟩
    else
      ⟨content, "pattern_not_found", "Search pattern not found in file"⟩

/-- The per-file body of `PS5ELFProcessor.revert_libc_patch` (lines 496-610),
structurally the mirror image of `applyLibcFile`: search for the replacement
(`search_pattern`) and restore the original (`original_pattern`). -/
def revertLibcFile (createBackup : Bool) (searchPattern originalPattern : List Nat)
    (content : List Nat) (fault : PatchFault) : FileOutcome :=
  match fault with
  | .outerExc msg => ⟨content, "error", "Error reading file: " ++ msg⟩
  | f =>
    if containsSub searchPattern content then
      if containsSub originalPattern content then
        ⟨content, "already_original", "File already contains original pattern"⟩
      else
        match f with
        | .innerExc msg leftover =>
          ⟨if createBackup then content else leftover, "error",
            "Error during reversion: " ++ msg⟩
        | _ =>
          let reverted := pyReplace searchPattern originalPattern content
          if containsSub originalPattern reverted && !containsSub searchPattern reverted then
            ⟨reverted, "reverted", "Patch reverted successfully"⟩
          else
            ⟨if createBackup then content else reverted, "failed", "Reversion verification failed"⟩
    else
      ⟨content, "patch_not_found", "Patch pattern not found in file"⟩

/-- Report of `apply_libc_patch`: the four counters and the `files` mapping
(path ↦ status, message) in insertion order.  Each counter counts exactly the
statuses whose branch increments it in the source (`failed` is incremented by
both the `'failed'` and the `'error'` branches). -/
structure ApplyReport where
  applied : Nat
  already_patched : Nat
  pattern_not_found : Nat
  failed : Nat
  files : List (List Char × String × String)
deriving DecidableEq

/-- Report of `revert_libc_patch`. -/
structure RevertReport where
  reverted : Nat
  already_original : Nat
  patch_not_found : Nat
  failed : Nat
  files : List (List Char × String × String)
deriving DecidableEq

/-- Per-target outcomes of one `apply_libc_patch` run, in enumeration order. -/
def applyOutcomes (createBackup : Bool) (searchPattern replacementPattern : List Nat)
    (dir : List PFile) (faults : List Char → PatchFault) : List (List Char × FileOutcome) :=
  (patchTargets dir).map
    (fun f => (f.name, applyLibcFile createBackup searchPattern replacementPattern f.content (faults f.name)))

/-- `PS5ELFProcessor.apply_libc_patch` over a directory: report plus the
resulting directory contents (targets mutated in place, all other files
untouched). -/
def applyLibcPatch (createBackup : Bool) (searchPattern replacementPattern : List Nat)
    (dir : List PFile) (faults : List Char → PatchFault) : ApplyReport × List PFile :=
  let outs := applyOutcomes createBackup searchPattern replacementPattern dir faults
  ({ applied := (outs.filter (fun x => x.2.status == "applied")).length
   , already_patched := (outs.filter (fun x => x.2.status == "already_patched")).length
   , pattern_not_found := (outs.filter (fun x => x.2.status == "pattern_not_found")).length
   , failed := (outs.filter (fun x => x.2.status == "failed" || x.2.status == "error")).length
   , files := outs.map (fun x => (x.1, x.2.status, x.2.message)) },
   dir.map (fun f =>
     if isPatchTarget f then
       { f with content := (applyLibcFile createBackup searchPattern replacementPattern
                             f.content (faults f.name)).newContent }
     else f))

/-- Per-target outcomes of one `revert_libc_patch` run. -/
def revertOutcomes (createBackup : Bool) (searchPattern originalPattern : List Nat)
    (dir : List PFile) (faults : List Char → PatchFault) : List (List Char × FileOutcome) :=
  (patchTargets dir).map
    (fun f => (f.name, revertLibcFile createBackup searchPattern originalPattern f.content (faults f.name)))

/-- `PS5ELFProcessor.revert_libc_patch` over a directory. -/
def revertLibcPatch (createBackup : Bool) (searchPattern originalPattern : List Nat)
    (dir : List PFile) (faults : List Char → PatchFault) : RevertReport × List PFile :=
  let outs := revertOutcomes createBackup searchPattern originalPattern dir faults
  ({ reverted := (outs.filter (fun x => x.2.status == "reverted")).length
   , already_original := (outs.filter (fun x => x.2.status == "already_original")).length
   , patch_not_found := (outs.filter (fun x => x.2.status == "patch_not_found")).length
   , failed := (outs.filter (fun x => x.2.status == "failed" || x.2.status == "error")).length
   , files := outs.map (fun x => (x.1, x.2.status, x.2.message)) },
   dir.map (fun f =>
     if isPatchTarget f then
       { f with content := (revertLibcFile createBackup searchPattern originalPattern
                             f.content (faults f.name)).newContent }
     else f))

/-- Report of `check_libc_patch_status`: each readable target is placed in
exactly one of the four pattern categories; unreadable targets go to
`error_files`.  Lists hold the file paths in enumeration order. -/
structure CheckReport where
  original_files : List (List Char)
  patched_files : List (List Char)
  both_patterns_files : List (List Char)
  no_pattern_files : List (List Char)
  error_files : List (List Char)
  total_files : Nat
deriving DecidableEq

/-- `PS5ELFProcessor.check_libc_patch_status`.  `readFails f` models the
per-file read raising (the `except` branch). -/
def checkLibcPatchStatus (searchPattern patchPattern : List Nat) (dir : List PFile)
    (readFails : List Char → Bool) : CheckReport :=
  let ts := patchTargets dir
  let ok := ts.filter (fun f => !readFails f.name)
  { original_files :=
      (ok.filter (fun f => containsSub searchPattern f.content
        && !containsSub patchPattern f.content)).map PFile.name
  , patched_files :=
      (ok.filter (fun f => containsSub patchPattern f.content
        && !containsSub searchPattern f.content)).map PFile.name
  , both_patterns_files :=
      (ok.filter (fun f => containsSub searchPattern f.content
        && containsSub patchPattern f.content)).map PFile.name
  , no_pattern_files :=
      (ok.filter (fun f => !containsSub searchPattern f.content
        && !containsSub patchPattern f.content)).map PFile.name
  , error_files := (ts.filter (fun f => readFails f.name)).map PFile.name
  , total_files := ts.length }

/-- The target set of `decrypt_files` (`.bak` names skipped, `_is_self_file`). -/
def selfTargets (dir : List PFile) : List PFile :=
  dir.filter (fun f => isSelfFile f)

/-- External collaborators as the orchestrator consumes them (spec sec. 6).
`patchElf` is `SDKVersionPatcher.patch_file` on an input path: the orchestrator
only consumes its success flag and message, and it converts an exception into a
failure entry, so a `(false, msg)` result covers both.  `signElf` /
`decodeSelf` likewise fold the collaborator raising into a `false` result.
`signedBytes` / `decodedBytes` give the bytes the collaborator writes on
success.  `copyFakelib` is the filesystem-dependent outcome of `_copy_fakelib`,
and `ebootCopies` the number of `eboot.bin` directories `_copy_fakelib_to_eboot_dirs`
populates. -/
structure Collab where
  patchElf : List Char → Bool × String
  signElf : List Char → Bool
  signedBytes : List Char → List Nat
  decodeSelf : List Char → Bool
  decodedBytes : List Char → List Nat
  copyFakelib : Bool × String
  ebootCopies : Nat

/-- The keyword arguments of `downgrade_and_sign` that steer the pipeline.
`fakelib_source` records whether a fakelib source directory was passed. -/
structure DSConfig where
  sdk_pair : Int
  paid : Nat
  ptype : Nat
  fakelib_source : Bool
  create_backup : Bool
  overwrite : Bool
  apply_libc_patch : Bool
  auto_revert_for_high_sdk : Bool

/-- Which of the two step-3 patch operations a `downgrade_and_sign` run
executed. -/
inductive LibcAction where
  | none
  | applied
  | reverted
deriving DecidableEq

/-- One entry of `results['signing']['files']`. -/
structure SignEntry where
  success : Bool
  output : List Char
  message : String
deriving DecidableEq

/-- Report of `downgrade_and_sign` (subdictionaries flattened into fields). -/
structure DSReport where
  downgrade_successful : Nat
  downgrade_failed : Nat
  downgrade_files : List (List Char × Bool × String)
  signing_successful : Nat
  signing_failed : Nat
  signing_files : List (List Char × SignEntry)
  libcAction : LibcAction
  libc_applied : Nat
  libc_reverted : Nat
  applyResults : Option ApplyReport
  revertResults : Option RevertReport
  fakelib_success : Bool
  fakelib_message : String
  fakelib_copies_created : Nat

/-- Write a produced output file into the output directory (create or
overwrite by path). -/
def updateDir (dir : List PFile) (n : List Char) (c : List Nat) : List PFile :=
  if dir.any (fun g => g.name == n) then
    dir.map (fun g => if g.name == n then ⟨n, c⟩ else g)
  else dir ++ [⟨n, c⟩]

/-- Accumulator of the signing loop. -/
structure SignState where
  successful : Nat
  failed : Nat
  files : List (List Char × SignEntry)
  out : List PFile

/-- One iteration of the signing loop of `downgrade_and_sign` (lines 909-969):
downgrade failures are recorded as skipped without consulting the signer;
existing outputs are skipped silently unless `overwrite`; otherwise the signer
runs and on success the output file is written. -/
def signStep (collab : Collab) (cfg : DSConfig) (dgOk : List Char → Bool)
    (st : SignState) (f : PFile) : SignState :=
  if !dgOk f.name then
    { st with
      failed := st.failed + 1,
      files := st.files ++ [(f.name, ⟨false, [], "Skipped due to downgrade failure"⟩)] }
  else if st.out.any (fun g => g.name == f.name) && !cfg.overwrite then
    st
  else
    let s := collab.signElf f.name
    { successful := st.successful + (if s then 1 else 0),
      failed := st.failed + (if s then 0 else 1),
      files := st.files ++ [(f.name, ⟨s, f.name, if s then "Success" else "Failed"⟩)],
      out := if s then updateDir st.out f.name (collab.signedBytes f.name) else st.out }

/-- `PS5ELFProcessor.downgrade_and_sign` (lines 756-1033): returns the report
and the final state of the output directory.  Step 3 runs the libc patch with
`create_backup=False` against the signed output, fault-free I/O assumed for
that step. -/
def downgradeAndSign (collab : Collab) (cfg : DSConfig)
    (inputDir outputDir : List PFile) : DSReport × List PFile :=
  let elfs := elfTargets inputDir
  if elfs.isEmpty then
    ({ downgrade_successful := 0, downgrade_failed := 0, downgrade_files := [],
       signing_successful := 0, signing_failed := 0, signing_files := [],
       libcAction := .none, libc_applied := 0, libc_reverted := 0,
       applyResults := Option.none, revertResults := Option.none,
       fakelib_success := false, fakelib_message := "", fakelib_copies_created := 0 },
     outputDir)
  else
    let dgFiles := elfs.map (fun f => (f.name, collab.patchElf f.name))
    let dgOk := fun n =>
      match dgFiles.lookup n with
      | some e => e.1
      | Option.none => false
    let st := elfs.foldl (signStep collab cfg dgOk) ⟨0, 0, [], outputDir⟩
    let step3 :
        LibcAction × Nat × Nat × Option ApplyReport × Option RevertReport × List PFile :=
      if cfg.apply_libc_patch then
        if cfg.sdk_pair ≤ 6 then
          let pr := applyLibcPatch false LIBC_PATCH_PATTERN LIBC_PATCH_REPLACEMENT
            st.out (fun _ => .ok)
          (LibcAction.applied, pr.1.applied, 0, some pr.1, Option.none, pr.2)
        else if cfg.auto_revert_for_high_sdk then
          let pr := revertLibcPatch false LIBC_PATCH_REPLACEMENT LIBC_PATCH_PATTERN
            st.out (fun _ => .ok)
          (LibcAction.reverted, 0, pr.1.reverted, Option.none, some pr.1, pr.2)
        else (LibcAction.none, 0, 0, Option.none, Option.none, st.out)
      else (LibcAction.none, 0, 0, Option.none, Option.none, st.out)
    let fakelib : Bool × String :=
      if cfg.fakelib_source then collab.copyFakelib else (false, "")
    ({ downgrade_successful := (elfs.filter (fun f => (collab.patchElf f.name).1)).length,
       downgrade_failed := (elfs.filter (fun f => !(collab.patchElf f.name).1)).length,
       downgrade_files := dgFiles,
       signing_successful := st.successful,
       signing_failed := st.failed,
       signing_files := st.files,
       libcAction := step3.1,
       libc_applied := step3.2.1,
       libc_reverted := step3.2.2.1,
       applyResults := step3.2.2.2.1,
       revertResults := step3.2.2.2.2.1,
       fakelib_success := fakelib.1,
       fakelib_message := fakelib.2,
       fakelib_copies_created :=
         if cfg.fakelib_source && fakelib.1 then collab.ebootCopies else 0 },
     step3.2.2.2.2.2)

/-- Report of `decrypt_files`. -/
structure DecReport where
  successful : Nat
  failed : Nat
  files : List (List Char × Bool × String)
deriving DecidableEq

/-- One iteration of the decrypt loop (lines 167-216). -/
def decryptStep (collab : Collab) (overwrite : Bool)
    (st : DecReport × List PFile) (f : PFile) : DecReport × List PFile :=
  if st.2.any (fun g => g.name == f.name) && !overwrite then st
  else
    let s := collab.decodeSelf f.name
    ({ successful := st.1.successful + (if s then 1 else 0),
       failed := st.1.failed + (if s then 0 else 1),
       files := st.1.files ++ [(f.name, s, if s then "Success" else "Failed")] },
     if s then updateDir st.2 f.name (collab.decodedBytes f.name) else st.2)

/-- `PS5ELFProcessor.decrypt_files` (lines 100-222): returns the report and
the final state of the output directory. -/
def decryptFiles (collab : Collab) (overwrite : Bool)
    (inputDir outputDir : List PFile) : DecReport × List PFile :=
  let selfs := selfTargets inputDir
  if selfs.isEmpty then (⟨0, 0, []⟩, outputDir)
  else selfs.foldl (decryptStep collab overwrite) (⟨0, 0, []⟩, outputDir)

/-- The literal downstream section of the abort report built by
`process_full_pipeline` when no file decrypted (lines 1089-1103). -/
structure AbortedDSReport where
  successful : Nat
  failed : Nat
  files : List (List Char × SignEntry)
  fakelib_success : Bool
  fakelib_message : String
  libc_applied : Nat
  libc_reverted : Nat
  fakelib_copies_created : Nat
deriving DecidableEq

/-- The abort report's downstream section exactly as the source constructs it. -/
def abortedDownstream : AbortedDSReport :=
  { successful := 0, failed := 0, files := [],
    fakelib_success := false, fakelib_message := "Pipeline aborted",
    libc_applied := 0, libc_reverted := 0, fakelib_copies_created := 0 }

/-- Result of `process_full_pipeline`: either the abort report or the combined
decrypt + downgrade-and-sign report (with the final output directory). -/
inductive FullOutcome where
  | abortedRun (decrypt : DecReport) (downstream : AbortedDSReport)
  | completedRun (decrypt : DecReport) (ds : DSReport) (outDir : List PFile)

/-- `PS5ELFProcessor.process_full_pipeline` (lines 1035-1137).  The temporary
directory created by `tempfile.mkdtemp` starts fresh and empty; the second
component of the result records whether it still exists when the call
returns — the `finally` block removes it on every path, also when the body
raises (`bodyFault` models an exception raised inside the `try` body, which
then propagates to the caller). -/
def processFullPipeline (collab : Collab) (cfg : DSConfig)
    (inputDir outputDir : List PFile) (bodyFault : Option String) :
    Except String FullOutcome × Bool :=
  let dec := decryptFiles collab cfg.overwrite inputDir []
  match bodyFault with
  | some e => (Except.error e, false)
  | Option.none =>
    if dec.1.successful == 0 then
      (Except.ok (.abortedRun dec.1 abortedDownstream), false)
    else
      let ds := downgradeAndSign collab cfg dec.2 outputDir
      (Except.ok (.completedRun dec.1 ds.1 ds.2), false)

/-- Minimal JSON model: the config code only distinguishes objects (Python
dicts, on which `[...]=` assignment and `.get` work) from every other JSON
value (on which they raise), and reads string fields. -/
inductive Json where
  | obj (fields : List (List Char × Json))
  | str (s : List Char)
  | arr
  | num (n : Int)
  | boolean (b : Bool)
  | null

/-- State of the persisted config file `ps5_backport_config.json`. -/
inductive ConfigFileState where
  | absent
  | unreadable
  | unparseable
  | parsed (j : Json)

/-- Key `'directories'`. -/
def dirKey : List Char := ['d', 'i', 'r', 'e', 'c', 't', 'o', 'r', 'i', 'e', 's']

/-- Key `'last_input'`. -/
def lastInputKey : List Char := ['l', 'a', 's', 't', '_', 'i', 'n', 'p', 'u', 't']

/-- Key `'last_output'`. -/
def lastOutputKey : List Char := ['l', 'a', 's', 't', '_', 'o', 'u', 't', 'p', 'u', 't']

/-- Key `'last_used'`. -/
def lastUsedKey : List Char := ['l', 'a', 's', 't', '_', 'u', 's', 'e', 'd']

/-- The default config `_load_config` falls back to. -/
def defaultConfig : Json :=
  Json.obj [(dirKey, Json.obj
    [(lastInputKey, .str []), (lastOutputKey, .str []), (lastUsedKey, .str [])])]

/-- `PS5ELFProcessor._load_config`: missing file or any open/parse failure
falls back to the default; otherwise the parsed JSON value is returned as is. -/
def loadConfig : ConfigFileState → Json
  | .parsed j => j
  | _ => defaultConfig

/-- Python dict assignment `d[k] = v`: replace the value of an existing key in
place, else append the new key. -/
def setField : List (List Char × Json) → List Char → Json → List (List Char × Json)
  | [], k, v => [(k, v)]
  | (k', v') :: rest, k, v =>
    if k' == k then (k, v) :: rest else (k', v') :: setField rest k v

/-- `PS5ELFProcessor._save_directories_to_config`: load (fault-tolerant),
assign `config['directories']` — which raises `TypeError` when the parsed JSON
is not an object — then `_save_config`, which swallows write failures
(`writeFails` leaves the old file state in place). -/
def saveDirectoriesToConfig (st : ConfigFileState) (writeFails : Bool)
    (inputDir outputDir timestamp : List Char) : Except String ConfigFileState :=
  match loadConfig st with
  | .obj fields =>
    let newConfig := Json.obj (setField fields dirKey (Json.obj
      [(lastInputKey, .str inputDir), (lastOutputKey, .str outputDir),
       (lastUsedKey, .str timestamp)]))
    Except.ok (if writeFails then st else .parsed newConfig)
  | _ => Except.error "TypeError: value does not support item assignment"

/-- `PS5ELFProcessor.get_last_directories`: `config.get('directories', {})`
then `.get('last_input', '')` / `.get('last_output', '')`; `.get` on a
non-dict raises `AttributeError`. -/
def getLastDirectories (st : ConfigFileState) : Except String (Json × Json) :=
  match loadConfig st with
  | .obj fields =>
    match (fields.lookup dirKey).getD (Json.obj []) with
    | .obj dfields =>
      Except.ok ((dfields.lookup lastInputKey).getD (.str []),
        (dfields.lookup lastOutputKey).getD (.str []))
    | _ => Except.error "AttributeError: object has no attribute get"
  | _ => Except.error "AttributeError: object has no attribute get"

/-- `downgrade_and_sign` including its leading `_save_directories_to_config`
call (line 796-797): a raise from the config save propagates and the pipeline
body never runs. -/
def downgradeAndSignTop (collab : Collab) (cfg : DSConfig)
    (inputDir outputDir : List PFile) (saveToConfig : Bool) (st : ConfigFileState)
    (writeFails : Bool) (inp out ts : List Char) :
    Except String ((DSReport × List PFile) × ConfigFileState) :=
  if saveToConfig then
    match saveDirectoriesToConfig st writeFails inp out ts with
    | .error e => .error e
    | .ok st' => .ok (downgradeAndSign collab cfg inputDir outputDir, st')
  else
    .ok (downgradeAndSign collab cfg inputDir outputDir, st)

/-- Fault-free I/O assignment for a patch run. -/
def noFaults : List Char → PatchFault := fun _ => .ok

/-- The bytes of the (first) file with the given path in a directory. -/
def contentIn (dir : List PFile) (n : List Char) : Option (List Nat) :=
  (dir.find? (fun g => g.name == n)).map PFile.content

example :
    applyLibcFile true LIBC_PATCH_PATTERN LIBC_PATCH_REPLACEMENT LIBC_PATCH_PATTERN .ok
      = ⟨LIBC_PATCH_REPLACEMENT, "applied", "Patch applied successfully"⟩ := by decide

example :
    (applyLibcFile true LIBC_PATCH_PATTERN LIBC_PATCH_REPLACEMENT LIBC_PATCH_REPLACEMENT .ok).status
      = "pattern_not_found" := by decide

theorem lookup_append_of_none {β : Type} (l₁ l₂ : List (List Char × β)) (k : List Char)
    (h : l₁.lookup k = none) : (l₁ ++ l₂).lookup k = l₂.lookup k := by
  induction l₁ with
  | nil => rfl
  | cons a l ih =>
    simp only [List.lookup] at h ⊢
    cases hk : (k == a.1) with
    | true => simp [hk] at h
    | false => simp only [hk] at h ⊢; exact ih h

theorem nodup_name_inj {d : List PFile} (h : (d.map PFile.name).Nodup) {f g : PFile}
    (hf : f ∈ d) (hg : g ∈ d) (hfg : f.name = g.name) : f = g :=
  List.inj_on_of_nodup_map h hf hg hfg

theorem lookup_map_eq {β : Type} {ts : List PFile} (h : (ts.map PFile.name).Nodup)
    {f : PFile} (hf : f ∈ ts) (g : PFile → β) :
    (ts.map (fun x => (x.name, g x))).lookup f.name = some (g f) := by
  induction ts with
  | nil => cases hf
  | cons a ts ih =>
    rcases List.mem_cons.mp hf with rfl | hmem
    · simp [List.lookup]
    · have hne : f.name ≠ a.name := by
        intro he
        exact (List.nodup_cons.mp h).1 (he ▸ List.mem_map_of_mem PFile.name hmem)
      simp only [List.map_cons, List.lookup, beq_eq_false_iff_ne.mpr hne]
      exact ih (List.nodup_cons.mp h).2 hmem

theorem mem_patchTargets {f : PFile} {dir : List PFile} :
    f ∈ patchTargets dir ↔ f ∈ dir ∧ isPatchTarget f = true := by
  simp only [patchTargets, isPatchTarget, List.mem_append, List.mem_filter,
    Bool.and_eq_true, Bool.or_eq_true, Bool.not_eq_true']
  constructor
  · rintro (⟨hd, hs⟩ | ⟨hd, hl, _⟩)
    · exact ⟨hd, Or.inl hs⟩
    · exact ⟨hd, Or.inr hl⟩
  · rintro ⟨hd, hs | hl⟩
    · exact Or.inl ⟨hd, hs⟩
    · by_cases hse : isSelfFile f = true
      · exact Or.inl ⟨hd, hse⟩
      · exact Or.inr ⟨hd, hl, by simpa using hse⟩

theorem bak_lower_ne_libc {name : List Char} (h : bakSuffix.isSuffixOf name = true) :
    (List.map Char.toLower name == libcName) = false := by
  rw [ List.isSuffixOf_iff_suffix] at h
  obtain ⟨t, ht⟩ := h
  rw [beq_eq_false_iff_ne]
  intro he
  rw [← ht, List.map_append,
    show List.map Char.toLower bakSuffix = bakSuffix from by decide] at he
  have h4 := congrArg List.getLast? he
  rw [ List.getLast?_append_of_ne_nil _ (by decide)] at h4
  revert h4
  decide

/-- C7 counterexample: a file named `x.revert_bak` whose first four bytes are a
SELF magic is classified as a SELF file and lands in the patch and decrypt
target sets — the `.bak` name filter does not cover the distinct `.revert_bak`
backup suffix, because `'.revert_bak'` does not end in `'.bak'`. -/
theorem revert_bak_file_is_classified :
    revertBakSuffix.isSuffixOf
        ['x', '.', 'r', 'e', 'v', 'e', 'r', 't', '_', 'b', 'a', 'k'] = true ∧
    isSelfFile ⟨['x', '.', 'r', 'e', 'v', 'e', 'r', 't', '_', 'b', 'a', 'k'], selfMagic1⟩ = true ∧
    (⟨['x', '.', 'r', 'e', 'v', 'e', 'r', 't', '_', 'b', 'a', 'k'], selfMagic1⟩ : PFile)
      ∈ patchTargets [⟨['x', '.', 'r', 'e', 'v', 'e', 'r', 't', '_', 'b', 'a', 'k'], selfMagic1⟩] ∧
    (⟨['x', '.', 'r', 'e', 'v', 'e', 'r', 't', '_', 'b', 'a', 'k'], selfMagic1⟩ : PFile)
      ∈ selfTargets [⟨['x', '.', 'r', 'e', 'v', 'e', 'r', 't', '_', 'b', 'a', 'k'], selfMagic1⟩] := by
  decide

/-- C7 amended: only the `.bak` suffix is reserved: every file whose name ends
in `.bak` is excluded from SELF and ELF classification and from every target
set regardless of its content; `.revert_bak` backups are not excluded. -/
theorem bak_files_never_classified (f : PFile) (dir : List PFile)
    (h : bakSuffix.isSuffixOf f.name = true) :
    isSelfFile f = false ∧ isElfFile f = false ∧
    f ∉ selfTargets dir ∧ f ∉ elfTargets dir ∧ f ∉ patchTargets dir := by
  have hself : isSelfFile f = false := by simp [isSelfFile, h]
  have helf : isElfFile f = false := by simp [isElfFile, h]
  refine ⟨hself, helf, ?_, ?_, ?_⟩
  · intro hm
    have := (List.mem_filter.mp hm).2
    rw [hself] at this
    cases this
  · intro hm
    have := (List.mem_filter.mp hm).2
    rw [helf] at this
    cases this
  · intro hm
    rcases mem_patchTargets.mp hm with ⟨_, ht⟩
    rw [isPatchTarget, hself] at ht
    simp only [Bool.false_or] at ht
    rw [show lowerName f = List.map Char.toLower f.name from rfl, bak_lower_ne_libc h] at ht
    cases ht

theorem bak_files_never_classified_witness :
    bakSuffix.isSuffixOf ['a', '.', 'b', 'a', 'k'] = true ∧
    (isSelfFile ⟨['a', '.', 'b', 'a', 'k'], selfMagic1⟩ = false ∧
     isElfFile ⟨['a', '.', 'b', 'a', 'k'], selfMagic1⟩ = false ∧
     (⟨['a', '.', 'b', 'a', 'k'], selfMagic1⟩ : PFile)
        ∉ selfTargets [⟨['a', '.', 'b', 'a', 'k'], selfMagic1⟩] ∧
     (⟨['a', '.', 'b', 'a', 'k'], selfMagic1⟩ : PFile)
        ∉ elfTargets [⟨['a', '.', 'b', 'a', 'k'], selfMagic1⟩] ∧
     (⟨['a', '.', 'b', 'a', 'k'], selfMagic1⟩ : PFile)
        ∉ patchTargets [⟨['a', '.', 'b', 'a', 'k'], selfMagic1⟩]) :=
  ⟨by decide, bak_files_never_classified ⟨['a', '.', 'b', 'a', 'k'], selfMagic1⟩
    [⟨['a', '.', 'b', 'a', 'k'], selfMagic1⟩] (by decide)⟩

/-- C8: a file containing both byte patterns is reported by
`check_libc_patch_status` in the distinct `both_patterns_files` category, and
neither `apply_libc_patch` nor `revert_libc_patch` changes its bytes (under any
fault and backup setting: apply classifies it `already_patched`, revert
`already_original`, both before any write). -/
theorem both_patterns_flagged (sp pp : List Nat) (dir : List PFile)
    (readFails : List Char → Bool) (f : PFile)
    (hf : f ∈ patchTargets dir) (hrf : readFails f.name = false)
    (ho : containsSub sp f.content = true) (hp : containsSub pp f.content = true) :
    f.name ∈ (checkLibcPatchStatus sp pp dir readFails).both_patterns_files ∧
    (∀ cb fault, (applyLibcFile cb sp pp f.content fault).newContent = f.content) ∧
    (∀ cb fault, (revertLibcFile cb pp sp f.content fault).newContent = f.content) := by
  refine ⟨?_, ?_, ?_⟩
  · simp only [checkLibcPatchStatus]
    exact List.mem_map_of_mem PFile.name
      (List.mem_filter.mpr ⟨List.mem_filter.mpr ⟨hf, by simp [hrf]⟩, by simp [ho, hp]⟩)
  · intro cb fault
    cases fault <;> simp [applyLibcFile, ho, hp]
  · intro cb fault
    cases fault <;> simp [revertLibcFile, ho, hp]

theorem both_patterns_flagged_witness :
    (⟨libcName, [1, 2]⟩ : PFile).name
        ∈ (checkLibcPatchStatus [1] [2] [⟨libcName, [1, 2]⟩] (fun _ => false)).both_patterns_files ∧
    (applyLibcFile true [1] [2] [1, 2] .ok).newContent = [1, 2] ∧
    (revertLibcFile true [2] [1] [1, 2] .ok).newContent = [1, 2] := by
  have h := both_patterns_flagged [1] [2] [⟨libcName, [1, 2]⟩] (fun _ => false)
    ⟨libcName, [1, 2]⟩ (by decide) rfl (by decide) (by decide)
  exact ⟨h.1, h.2.1 true .ok, h.2.2 true .ok⟩

theorem filter_four_partition {α : Type} (p1 p2 p3 p4 : α → Bool) (l : List α)
    (h : ∀ x ∈ l, (if p1 x then 1 else 0) + (if p2 x then 1 else 0)
        + (if p3 x then 1 else 0) + (if p4 x then 1 else 0) = 1) :
    (l.filter p1).length + (l.filter p2).length + (l.filter p3).length
        + (l.filter p4).length = l.length := by
  induction l with
  | nil => simp
  | cons a l ih =>
    have ha := h a (List.mem_cons_self a l)
    have ih' := ih (fun x hx => h x (List.mem_cons_of_mem a hx))
    simp only [List.filter_cons, List.length_cons]
    cases h1 : p1 a <;> cases h2 : p2 a <;> cases h3 : p3 a <;> cases h4 : p4 a <;>
      simp [h1, h2, h3, h4] at ha ⊢ <;> omega

theorem applyLibcFile_status_partition (cb : Bool) (sp rp c : List Nat) (ft : PatchFault) :
    (if (applyLibcFile cb sp rp c ft).status == "applied" then 1 else 0)
      + (if (applyLibcFile cb sp rp c ft).status == "already_patched" then 1 else 0)
      + (if (applyLibcFile cb sp rp c ft).status == "pattern_not_found" then 1 else 0)
      + (if ((applyLibcFile cb sp rp c ft).status == "failed"
          || (applyLibcFile cb sp rp c ft).status == "error") then 1 else 0) = 1 := by
  cases ft <;> simp only [applyLibcFile] <;> (repeat' split) <;> simp_all

theorem revertLibcFile_status_partition (cb : Bool) (sp op c : List Nat) (ft : PatchFault) :
    (if (revertLibcFile cb sp op c ft).status == "reverted" then 1 else 0)
      + (if (revertLibcFile cb sp op c ft).status == "already_original" then 1 else 0)
      + (if (revertLibcFile cb sp op c ft).status == "patch_not_found" then 1 else 0)
      + (if ((revertLibcFile cb sp op c ft).status == "failed"
          || (revertLibcFile cb sp op c ft).status == "error") then 1 else 0) = 1 := by
  cases ft <;> simp only [revertLibcFile] <;> (repeat' split) <;> simp_all

/-- C10: in every `apply_libc_patch` run the four counters sum to the number of
enumerated target files and the `files` mapping holds exactly one entry per
enumerated target (in enumeration order); likewise for `revert_libc_patch`.
This holds under arbitrary per-file I/O faults and either backup setting. -/
theorem patch_report_counters (cb cb' : Bool) (sp rp so oo : List Nat)
    (dir dir' : List PFile) (faults faults' : List Char → PatchFault) :
    ((applyLibcPatch cb sp rp dir faults).1.applied
        + (applyLibcPatch cb sp rp dir faults).1.already_patched
        + (applyLibcPatch cb sp rp dir faults).1.pattern_not_found
        + (applyLibcPatch cb sp rp dir faults).1.failed = (patchTargets dir).length
      ∧ (applyLibcPatch cb sp rp dir faults).1.files.map Prod.fst
          = (patchTargets dir).map PFile.name)
    ∧ ((revertLibcPatch cb' so oo dir' faults').1.reverted
        + (revertLibcPatch cb' so oo dir' faults').1.already_original
        + (revertLibcPatch cb' so oo dir' faults').1.patch_not_found
        + (revertLibcPatch cb' so oo dir' faults').1.failed = (patchTargets dir').length
      ∧ (revertLibcPatch cb' so oo dir' faults').1.files.map Prod.fst
          = (patchTargets dir').map PFile.name) := by
  constructor
  · constructor
    · have := filter_four_partition
        (fun x : List Char × FileOutcome => x.2.status == "applied")
        (fun x => x.2.status == "already_patched")
        (fun x => x.2.status == "pattern_not_found")
        (fun x => x.2.status == "failed" || x.2.status == "error")
        (applyOutcomes cb sp rp dir faults)
        (by
          intro x hx
          simp only [applyOutcomes, List.mem_map] at hx
          obtain ⟨f, _, rfl⟩ := hx
          exact applyLibcFile_status_partition cb sp rp f.content (faults f.name))
      simpa [applyLibcPatch, applyOutcomes] using this
    · simp [applyLibcPatch, applyOutcomes, List.map_map, Function.comp]
  · constructor
    · have := filter_four_partition
        (fun x : List Char × FileOutcome => x.2.status == "reverted")
        (fun x => x.2.status == "already_original")
        (fun x => x.2.status == "patch_not_found")
        (fun x => x.2.status == "failed" || x.2.status == "error")
        (revertOutcomes cb' so oo dir' faults')
        (by
          intro x hx
          simp only [revertOutcomes, List.mem_map] at hx
          obtain ⟨f, _, rfl⟩ := hx
          exact revertLibcFile_status_partition cb' so oo f.content (faults' f.name))
      simpa [revertLibcPatch, revertOutcomes] using this
    · simp [revertLibcPatch, revertOutcomes, List.map_map, Function.comp]

/-- C3: with `create_backup=True`, a failed post-write verification or an
exception inside the write/verify block leaves the file with exactly its
pre-apply bytes (restored from the backup) and records a `failed` entry with
the verification-failed message, or an `error` entry with the exception
message; symmetrically for `revert_libc_patch`.  Both the `failed` and the
`error` status increment the report's `failed` counter (see
`patch_report_counters`). -/
theorem patch_failure_restores_backup (sp rp c sq rq d leftover : List Nat) (msg : String)
    (hs : containsSub sp c = true) (hr : containsSub rp c = false)
    (hvf : (containsSub sp (pyReplace sp rp c)
        || !containsSub rp (pyReplace sp rp c)) = true)
    (hs' : containsSub rq d = true) (hr' : containsSub sq d = false)
    (hvf' : (!containsSub sq (pyReplace rq sq d)
        || containsSub rq (pyReplace rq sq d)) = true) :
    applyLibcFile true sp rp c (.innerExc msg leftover)
        = ⟨c, "error", "Error during patching: " ++ msg⟩ ∧
    applyLibcFile true sp rp c .ok = ⟨c, "failed", "Patch verification failed"⟩ ∧
    revertLibcFile true rq sq d (.innerExc msg leftover)
        = ⟨d, "error", "Error during reversion: " ++ msg⟩ ∧
    revertLibcFile true rq sq d .ok = ⟨d, "failed", "Reversion verification failed"⟩ := by
  refine ⟨?_, ?_, ?_, ?_⟩
  · simp [applyLibcFile, hs, hr]
  · have : (!containsSub sp (pyReplace sp rp c)
        && containsSub rp (pyReplace sp rp c)) = false := by
      cases hA : containsSub sp (pyReplace sp rp c) <;>
        cases hB : containsSub rp (pyReplace sp rp c) <;>
        simp_all
    simp [applyLibcFile, hs, hr, this]
  · simp [revertLibcFile, hs', hr']
  · have : (containsSub sq (pyReplace rq sq d)
        && !containsSub rq (pyReplace rq sq d)) = false := by
      cases hA : containsSub sq (pyReplace rq sq d) <;>
        cases hB : containsSub rq (pyReplace rq sq d) <;>
        simp_all
    simp [revertLibcFile, hs', hr', this]

theorem patch_failure_restores_backup_witness :
    applyLibcFile true [1] [1, 1] [1] (.innerExc "boom" [9])
        = ⟨[1], "error", "Error during patching: " ++ "boom"⟩ ∧
    applyLibcFile true [1] [1, 1] [1] .ok = ⟨[1], "failed", "Patch verification failed"⟩ ∧
    revertLibcFile true [1] [1, 1] [1] (.innerExc "boom" [9])
        = ⟨[1], "error", "Error during reversion: " ++ "boom"⟩ ∧
    revertLibcFile true [1] [1, 1] [1] .ok = ⟨[1], "failed", "Reversion verification failed"⟩ :=
  patch_failure_restores_backup [1] [1, 1] [1] [1, 1] [1] [1] [9] "boom"
    (by decide) (by decide) (by decide) (by decide) (by decide) (by decide)

/-- C9 counterexample: when the config file parses to a JSON array,
`_save_directories_to_config` raises (`config['directories'] = ...` is a
`TypeError` on a list: only the load and the final write are guarded), and a
`downgrade_and_sign` call with `save_to_config=True` therefore raises before
doing any work — a config-state-dependent pipeline failure. -/
theorem save_config_raises_on_array :
    saveDirectoriesToConfig (.parsed Json.arr) false [] [] []
        = Except.error "TypeError: value does not support item assignment" ∧
    downgradeAndSignTop
        ⟨fun _ => (true, "ok"), fun _ => true, fun _ => [], fun _ => true, fun _ => [],
          (true, ""), 0⟩
        ⟨4, 0, 0, false, false, false, true, true⟩ [] [] true (.parsed Json.arr) false [] [] []
        = Except.error "TypeError: value does not support item assignment" := by
  exact ⟨rfl, rfl⟩

/-- C9 amended: when the config file is absent, unreadable, unparseable, or
parses to a JSON object, saving the last-used directories never raises (write
failures are swallowed, leaving the old state); `get_last_directories` returns
a pair of empty strings when no config exists or the directory fields are
missing; and whenever the save does not raise, `downgrade_and_sign` returns
exactly the report it returns without config persistence, for every config
state and write fault. -/
theorem config_store_amended (fields : List (List Char × Json)) (wf : Bool)
    (i o t : List Char) (st : ConfigFileState)
    (hst : st = ConfigFileState.absent ∨ st = ConfigFileState.unreadable
        ∨ st = ConfigFileState.unparseable ∨ st = ConfigFileState.parsed (.obj fields)) :
    (∃ st', saveDirectoriesToConfig st wf i o t = Except.ok st') ∧
    getLastDirectories ConfigFileState.absent = Except.ok (.str [], .str []) ∧
    getLastDirectories (ConfigFileState.parsed (Json.obj [])) = Except.ok (.str [], .str []) ∧
    (∀ (collab : Collab) (cfg : DSConfig) (idir odir : List PFile) (st' : ConfigFileState),
      saveDirectoriesToConfig st wf i o t = Except.ok st' →
      downgradeAndSignTop collab cfg idir odir true st wf i o t
        = Except.ok (downgradeAndSign collab cfg idir odir, st')) := by
  refine ⟨?_, rfl, rfl, ?_⟩
  · rcases hst with rfl | rfl | rfl | rfl <;>
      exact ⟨_, rfl⟩
  · intro collab cfg idir odir st' hsave
    simp [downgradeAndSignTop, hsave]

theorem config_store_amended_witness :
    (∃ st', saveDirectoriesToConfig ConfigFileState.absent false [] [] [] = Except.ok st') ∧
    getLastDirectories ConfigFileState.absent = Except.ok (.str [], .str []) ∧
    getLastDirectories (ConfigFileState.parsed (Json.obj [])) = Except.ok (.str [], .str []) ∧
    (∀ (collab : Collab) (cfg : DSConfig) (idir odir : List PFile) (st' : ConfigFileState),
      saveDirectoriesToConfig ConfigFileState.absent false [] [] [] = Except.ok st' →
      downgradeAndSignTop collab cfg idir odir true ConfigFileState.absent false [] [] []
        = Except.ok (downgradeAndSign collab cfg idir odir, st')) :=
  config_store_amended [] false [] [] [] ConfigFileState.absent (Or.inl rfl)

theorem applyLibcFile_ok_applied {cb : Bool} {sp rp c : List Nat}
    (h : (applyLibcFile cb sp rp c .ok).status = "applied") :
    applyLibcFile cb sp rp c .ok
        = ⟨pyReplace sp rp c, "applied", "Patch applied successfully"⟩ ∧
    containsSub sp c = true ∧ containsSub rp c = false ∧
    containsSub sp (pyReplace sp rp c) = false ∧
    containsSub rp (pyReplace sp rp c) = true := by
  by_cases h1 : containsSub sp c = true
  · by_cases h2 : containsSub rp c = true
    · simp [applyLibcFile, h1, h2] at h
    · by_cases h3 : (!containsSub sp (pyReplace sp rp c)
          && containsSub rp (pyReplace sp rp c)) = true
      · have h3a := (Bool.and_eq_true _ _).mp h3
        refine ⟨by simp [applyLibcFile, h1, h2, h3], h1, by simpa using h2, ?_, h3a.2⟩
        have := h3a.1
        cases hx : containsSub sp (pyReplace sp rp c)
        · rfl
        · rw [hx] at this; cases this
      · simp [applyLibcFile, h1, h2, h3] at h
  · simp [applyLibcFile, h1] at h

theorem applyLibcFile_applied_then_not_found {cb cb' : Bool} {sp rp c : List Nat}
    (h : (applyLibcFile cb sp rp c .ok).status = "applied") :
    applyLibcFile cb' sp rp (applyLibcFile cb sp rp c .ok).newContent .ok
      = ⟨(applyLibcFile cb sp rp c .ok).newContent, "pattern_not_found",
         "Search pattern not found in file"⟩ := by
  obtain ⟨e, _, _, h4, _⟩ := applyLibcFile_ok_applied h
  rw [e]
  simp [applyLibcFile, h4]

theorem pyReplaceAux_take_eq (p r : List Nat) (s : List Nat) (k : Nat)
    (h : ∀ i, i < k → ¬ p.isPrefixOf (s.drop i) = true) :
    (pyReplaceAux p r 0 s).take k = s.take k := by
  induction s generalizing k with
  | nil => simp [pyReplaceAux]
  | cons b t ih =>
    cases k with
    | zero => simp
    | succ j =>
      have h0 : ¬ p.isPrefixOf (b :: t) = true := by simpa using h 0 (Nat.succ_pos j)
      rw [pyReplaceAux_neg p r b t h0]
      simp only [List.take_succ_cons]
      congr 1
      exact ih j (fun i hi => by simpa using h (i + 1) (Nat.succ_lt_succ hi))

theorem no_pattern_inside_self_magic (c : List Nat)
    (hm : c.take 4 = selfMagic1 ∨ c.take 4 = selfMagic2) :
    ∀ i, i < 4 → ¬ LIBC_PATCH_PATTERN.isPrefixOf (c.drop i) = true := by
  intro i hi
  rcases hm with h | h <;>
  · intro hp
    rw [(List.take_append_drop 4 c).symm, h] at hp
    revert hp
    generalize c.drop 4 = e
    interval_cases i <;>
      simp [selfMagic1, selfMagic2, LIBC_PATCH_PATTERN, List.isPrefixOf]

theorem patched_isSelf (f : PFile) (hs : isSelfFile f = true) :
    isSelfFile ⟨f.name, pyReplace LIBC_PATCH_PATTERN LIBC_PATCH_REPLACEMENT f.content⟩ = true := by
  rw [isSelfFile] at hs ⊢
  by_cases hb : bakSuffix.isSuffixOf f.name = true
  · rw [if_pos hb] at hs; cases hs
  · rw [if_neg hb] at hs ⊢
    have hm : f.content.take 4 = selfMagic1 ∨ f.content.take 4 = selfMagic2 := by
      rcases h2 : (f.content.take 4 == selfMagic1) with _ | _
      · right
        rw [h2] at hs
        simpa using hs
      · exact Or.inl (beq_iff_eq.mp h2)
    have ht : (pyReplace LIBC_PATCH_PATTERN LIBC_PATCH_REPLACEMENT f.content).take 4
        = f.content.take 4 := by
      rw [pyReplace, if_neg (by decide)]
      exact pyReplaceAux_take_eq _ _ _ 4 (no_pattern_inside_self_magic f.content hm)
    show ((pyReplace LIBC_PATCH_PATTERN LIBC_PATCH_REPLACEMENT f.content).take 4 == selfMagic1
        || (pyReplace LIBC_PATCH_PATTERN LIBC_PATCH_REPLACEMENT f.content).take 4 == selfMagic2)
        = true
    rw [ht]
    exact hs

theorem target_preserved (f : PFile) (ht : isPatchTarget f = true) :
    isPatchTarget ⟨f.name, pyReplace LIBC_PATCH_PATTERN LIBC_PATCH_REPLACEMENT f.content⟩
      = true := by
  rw [isPatchTarget] at ht ⊢
  rcases h2 : isSelfFile f with _ | _
  · rw [h2] at ht
    simp only [Bool.false_or] at ht
    exact Bool.or_eq_true_iff.mpr (Or.inr ht)
  · exact Bool.or_eq_true_iff.mpr (Or.inl (patched_isSelf f h2))

theorem patchTargets_names_nodup {d : List PFile} (h : (d.map PFile.name).Nodup) :
    ((patchTargets d).map PFile.name).Nodup := by
  rw [patchTargets, List.map_append]
  refine List.Nodup.append (h.sublist (((List.filter_sublist d)).map PFile.name))
    (h.sublist (((List.filter_sublist d)).map PFile.name)) ?_
  intro x hx hy
  rw [List.mem_map] at hx hy
  obtain ⟨f, hf, rfl⟩ := hx
  obtain ⟨g, hg, hgx⟩ := hy
  have hf2 := List.mem_filter.mp hf
  have hg2 := List.mem_filter.mp hg
  have hfg : f = g := nodup_name_inj h hf2.1 hg2.1 hgx.symm
  have h1 := hf2.2
  have h2 := hg2.2
  rw [← hfg] at h2
  rw [Bool.and_eq_true] at h2
  rw [h1] at h2
  simpa using h2.2

theorem find?_eq_of_mem_nodup {d : List PFile} (h : (d.map PFile.name).Nodup)
    {f : PFile} (hf : f ∈ d) : d.find? (fun g => g.name == f.name) = some f := by
  induction d with
  | nil => cases hf
  | cons a d ih =>
    rcases List.mem_cons.mp hf with rfl | hmem
    · exact List.find?_cons_of_pos d (by simp)
    · have hne : (a.name == f.name) = false := by
        rw [beq_eq_false_iff_ne]
        exact fun he => (List.nodup_cons.mp h).1 (he ▸ List.mem_map_of_mem PFile.name hmem)
      rw [List.find?_cons_of_neg d (by simp [hne])]
      exact ih (List.nodup_cons.mp h).2 hmem

theorem find?_map_name_preserving (d : List PFile) (upd : PFile → PFile)
    (hname : ∀ f, (upd f).name = f.name) (n : List Char) :
    (d.map upd).find? (fun g => g.name == n)
      = (d.find? (fun g => g.name == n)).map upd := by
  induction d with
  | nil => rfl
  | cons a d ih =>
    rcases hc : (a.name == n) with _ | _
    · rw [List.map_cons, List.find?_cons_of_neg _ (by simp [hname, hc]),
        List.find?_cons_of_neg _ (by simp [hc]), ih]
    · rw [List.map_cons, List.find?_cons_of_pos _ (by simp [hname, hc]),
        List.find?_cons_of_pos _ (by simp [hc])]
      rfl

theorem applyLibcPatch_files (cb : Bool) (sp rp : List Nat) (dir : List PFile)
    (faults : List Char → PatchFault) :
    (applyLibcPatch cb sp rp dir faults).1.files
      = (patchTargets dir).map (fun x =>
          (x.name, (applyLibcFile cb sp rp x.content (faults x.name)).status,
            (applyLibcFile cb sp rp x.content (faults x.name)).message)) := by
  simp [applyLibcPatch, applyOutcomes, List.map_map, Function.comp]

theorem applyLibcPatch_snd (cb : Bool) (sp rp : List Nat) (dir : List PFile)
    (faults : List Char → PatchFault) :
    (applyLibcPatch cb sp rp dir faults).2
      = dir.map (fun f => if isPatchTarget f then
          (⟨f.name, (applyLibcFile cb sp rp f.content (faults f.name)).newContent⟩ : PFile)
        else f) := by
  rfl

theorem applyLibcPatch_snd_names (cb : Bool) (sp rp : List Nat) (dir : List PFile)
    (faults : List Char → PatchFault) :
    ((applyLibcPatch cb sp rp dir faults).2).map PFile.name = dir.map PFile.name := by
  rw [applyLibcPatch_snd, List.map_map]
  refine List.map_congr_left (fun f _ => ?_)
  by_cases h : isPatchTarget f = true <;> simp [Function.comp, h]

/-- C1 counterexample: on a SELF file whose bytes are the magic followed by the
original pattern, the first `apply_libc_patch` reports `applied`, but a second
invocation reports `pattern_not_found` — not `already_patched` — because a
verified apply removes the search pattern, while the `already_patched` branch
is only reached when the search pattern is still present.  The second run does
leave the bytes unchanged. -/
theorem apply_twice_counterexample :
    (applyLibcPatch true LIBC_PATCH_PATTERN LIBC_PATCH_REPLACEMENT
        [⟨['e'], selfMagic1 ++ LIBC_PATCH_PATTERN⟩] noFaults).1.files
      = [(['e'], "applied", "Patch applied successfully")] ∧
    (applyLibcPatch true LIBC_PATCH_PATTERN LIBC_PATCH_REPLACEMENT
        (applyLibcPatch true LIBC_PATCH_PATTERN LIBC_PATCH_REPLACEMENT
          [⟨['e'], selfMagic1 ++ LIBC_PATCH_PATTERN⟩] noFaults).2 noFaults).1.files
      = [(['e'], "pattern_not_found", "Search pattern not found in file")] ∧
    (applyLibcPatch true LIBC_PATCH_PATTERN LIBC_PATCH_REPLACEMENT
        (applyLibcPatch true LIBC_PATCH_PATTERN LIBC_PATCH_REPLACEMENT
          [⟨['e'], selfMagic1 ++ LIBC_PATCH_PATTERN⟩] noFaults).2 noFaults).1.already_patched
      = 0 ∧
    (applyLibcPatch true LIBC_PATCH_PATTERN LIBC_PATCH_REPLACEMENT
        (applyLibcPatch true LIBC_PATCH_PATTERN LIBC_PATCH_REPLACEMENT
          [⟨['e'], selfMagic1 ++ LIBC_PATCH_PATTERN⟩] noFaults).2 noFaults).2
      = (applyLibcPatch true LIBC_PATCH_PATTERN LIBC_PATCH_REPLACEMENT
          [⟨['e'], selfMagic1 ++ LIBC_PATCH_PATTERN⟩] noFaults).2 := by
  decide

/-- C1 amended: for every target file on which `apply_libc_patch` succeeded
(status `applied`), a second invocation reports that file with status
`pattern_not_found` (incrementing the `pattern_not_found` counter, not the
`already_patched` one) and leaves the file's bytes unchanged. -/
theorem apply_twice_pattern_not_found (cb cb' : Bool) (dir : List PFile)
    (hn : (dir.map PFile.name).Nodup) (f : PFile) (hf : f ∈ patchTargets dir)
    (happ : (applyLibcFile cb LIBC_PATCH_PATTERN LIBC_PATCH_REPLACEMENT f.content .ok).status
        = "applied") :
    (applyLibcPatch cb LIBC_PATCH_PATTERN LIBC_PATCH_REPLACEMENT dir noFaults).1.files.lookup
        f.name = some ("applied", "Patch applied successfully") ∧
    (applyLibcPatch cb' LIBC_PATCH_PATTERN LIBC_PATCH_REPLACEMENT
        (applyLibcPatch cb LIBC_PATCH_PATTERN LIBC_PATCH_REPLACEMENT dir noFaults).2
        noFaults).1.files.lookup f.name
      = some ("pattern_not_found", "Search pattern not found in file") ∧
    contentIn (applyLibcPatch cb' LIBC_PATCH_PATTERN LIBC_PATCH_REPLACEMENT
        (applyLibcPatch cb LIBC_PATCH_PATTERN LIBC_PATCH_REPLACEMENT dir noFaults).2
        noFaults).2 f.name
      = contentIn (applyLibcPatch cb LIBC_PATCH_PATTERN LIBC_PATCH_REPLACEMENT dir
          noFaults).2 f.name ∧
    contentIn (applyLibcPatch cb LIBC_PATCH_PATTERN LIBC_PATCH_REPLACEMENT dir noFaults).2
        f.name
      = some (pyReplace LIBC_PATCH_PATTERN LIBC_PATCH_REPLACEMENT f.content) := by
  obtain ⟨e1, _, _, h4, _⟩ := applyLibcFile_ok_applied happ
  have hmem := mem_patchTargets.mp hf
  have hnod := patchTargets_names_nodup hn
  -- The first run's entry for `f`.
  have c1 : (applyLibcPatch cb LIBC_PATCH_PATTERN LIBC_PATCH_REPLACEMENT dir
      noFaults).1.files.lookup f.name = some ("applied", "Patch applied successfully") := by
    rw [applyLibcPatch_files]
    have := lookup_map_eq (β := String × String) hnod hf (fun x =>
      ((applyLibcFile cb LIBC_PATCH_PATTERN LIBC_PATCH_REPLACEMENT x.content
          (noFaults x.name)).status,
        (applyLibcFile cb LIBC_PATCH_PATTERN LIBC_PATCH_REPLACEMENT x.content
          (noFaults x.name)).message))
    rw [this, show noFaults f.name = PatchFault.ok from rfl, e1]
  -- The image of `f` after the first run.
  have hupd : (fun g => if isPatchTarget g then
        (⟨g.name, (applyLibcFile cb LIBC_PATCH_PATTERN LIBC_PATCH_REPLACEMENT g.content
          (noFaults g.name)).newContent⟩ : PFile)
      else g) f
      = (⟨f.name, pyReplace LIBC_PATCH_PATTERN LIBC_PATCH_REPLACEMENT f.content⟩ : PFile) := by
    simp [hmem.2, noFaults, e1]
  have hmem1 : (⟨f.name, pyReplace LIBC_PATCH_PATTERN LIBC_PATCH_REPLACEMENT f.content⟩ : PFile)
      ∈ (applyLibcPatch cb LIBC_PATCH_PATTERN LIBC_PATCH_REPLACEMENT dir noFaults).2 := by
    rw [applyLibcPatch_snd]
    exact hupd ▸ List.mem_map_of_mem _ hmem.1
  have hn1 : (((applyLibcPatch cb LIBC_PATCH_PATTERN LIBC_PATCH_REPLACEMENT dir
      noFaults).2).map PFile.name).Nodup := by
    rw [applyLibcPatch_snd_names]; exact hn
  have htar1 : (⟨f.name, pyReplace LIBC_PATCH_PATTERN LIBC_PATCH_REPLACEMENT f.content⟩ : PFile)
      ∈ patchTargets (applyLibcPatch cb LIBC_PATCH_PATTERN LIBC_PATCH_REPLACEMENT dir
          noFaults).2 :=
    mem_patchTargets.mpr ⟨hmem1, target_preserved f hmem.2⟩
  -- The second run's outcome on the patched content is `pattern_not_found`.
  have hout2 : applyLibcFile cb' LIBC_PATCH_PATTERN LIBC_PATCH_REPLACEMENT
      (pyReplace LIBC_PATCH_PATTERN LIBC_PATCH_REPLACEMENT f.content) .ok
      = ⟨pyReplace LIBC_PATCH_PATTERN LIBC_PATCH_REPLACEMENT f.content, "pattern_not_found",
        "Search pattern not found in file"⟩ := by
    simp [applyLibcFile, h4]
  refine ⟨c1, ?_, ?_, ?_⟩
  · rw [applyLibcPatch_files]
    have := lookup_map_eq (β := String × String) (patchTargets_names_nodup hn1) htar1
      (fun x => ((applyLibcFile cb' LIBC_PATCH_PATTERN LIBC_PATCH_REPLACEMENT x.content
          (noFaults x.name)).status,
        (applyLibcFile cb' LIBC_PATCH_PATTERN LIBC_PATCH_REPLACEMENT x.content
          (noFaults x.name)).message))
    rw [this, show noFaults f.name = PatchFault.ok from rfl, hout2]
  · rw [contentIn, contentIn, applyLibcPatch_snd cb']
    rw [find?_map_name_preserving _ _ (fun g => by
      by_cases h : isPatchTarget g = true <;> simp [h]) f.name]
    have hfind : ((applyLibcPatch cb LIBC_PATCH_PATTERN LIBC_PATCH_REPLACEMENT dir
        noFaults).2).find? (fun g => g.name == f.name)
        = some (⟨f.name, pyReplace LIBC_PATCH_PATTERN LIBC_PATCH_REPLACEMENT f.content⟩ :
            PFile) :=
      find?_eq_of_mem_nodup hn1 hmem1
    rw [hfind]
    simp only [Option.map_some']
    rw [if_pos (target_preserved f hmem.2), show noFaults f.name = PatchFault.ok from rfl,
      hout2]
  · rw [contentIn, applyLibcPatch_snd cb]
    rw [find?_map_name_preserving _ _ (fun g => by
      by_cases h : isPatchTarget g = true <;> simp [h]) f.name]
    rw [find?_eq_of_mem_nodup hn hmem.1]
    simp only [Option.map_some']
    rw [if_pos hmem.2, show noFaults f.name = PatchFault.ok from rfl, e1]

theorem apply_twice_pattern_not_found_witness :
    (applyLibcPatch true LIBC_PATCH_PATTERN LIBC_PATCH_REPLACEMENT
        [⟨['e'], selfMagic1 ++ LIBC_PATCH_PATTERN⟩] noFaults).1.files.lookup ['e']
      = some ("applied", "Patch applied successfully") ∧
    (applyLibcPatch true LIBC_PATCH_PATTERN LIBC_PATCH_REPLACEMENT
        (applyLibcPatch true LIBC_PATCH_PATTERN LIBC_PATCH_REPLACEMENT
          [⟨['e'], selfMagic1 ++ LIBC_PATCH_PATTERN⟩] noFaults).2 noFaults).1.files.lookup ['e']
      = some ("pattern_not_found", "Search pattern not found in file") ∧
    contentIn (applyLibcPatch true LIBC_PATCH_PATTERN LIBC_PATCH_REPLACEMENT
        (applyLibcPatch true LIBC_PATCH_PATTERN LIBC_PATCH_REPLACEMENT
          [⟨['e'], selfMagic1 ++ LIBC_PATCH_PATTERN⟩] noFaults).2 noFaults).2 ['e']
      = contentIn (applyLibcPatch true LIBC_PATCH_PATTERN LIBC_PATCH_REPLACEMENT
          [⟨['e'], selfMagic1 ++ LIBC_PATCH_PATTERN⟩] noFaults).2 ['e'] ∧
    contentIn (applyLibcPatch true LIBC_PATCH_PATTERN LIBC_PATCH_REPLACEMENT
        [⟨['e'], selfMagic1 ++ LIBC_PATCH_PATTERN⟩] noFaults).2 ['e']
      = some (pyReplace LIBC_PATCH_PATTERN LIBC_PATCH_REPLACEMENT
          (selfMagic1 ++ LIBC_PATCH_PATTERN)) :=
  apply_twice_pattern_not_found true true [⟨['e'], selfMagic1 ++ LIBC_PATCH_PATTERN⟩]
    (by decide) ⟨['e'], selfMagic1 ++ LIBC_PATCH_PATTERN⟩ (by decide) (by decide)

theorem drop_ne_take_of_replacement :
    ∀ m, m < 15 → 1 ≤ m →
      LIBC_PATCH_REPLACEMENT.drop m ≠ LIBC_PATCH_REPLACEMENT.take (15 - m) := by
  decide

theorem pyReplaceAux_pos' (p r : List Nat) (s : List Nat) (hne : p ≠ [])
    (hs : s ≠ []) (hp : p.isPrefixOf s = true) :
    pyReplaceAux p r 0 s = r ++ pyReplaceAux p r 0 (s.drop p.length) := by
  cases s with
  | nil => cases hs rfl
  | cons b t => exact pyReplaceAux_pos p r b t hne hp

/-- Transport of a partial replacement-pattern match back through the apply
scan: if a proper suffix of the replacement is a prefix of the scan's output,
it was already a prefix of the scan's input.  This is where the replacement
pattern having no nontrivial self-overlap (border) enters: a suffix of the
replacement can never begin inside an emitted replacement block. -/
theorem drop_prefix_transport (t : List Nat) :
    ∀ (m : Nat), 1 ≤ m → m ≤ 14 →
    (LIBC_PATCH_REPLACEMENT.drop m)
        <+: (pyReplaceAux LIBC_PATCH_PATTERN LIBC_PATCH_REPLACEMENT 0 t) →
    (LIBC_PATCH_REPLACEMENT.drop m) <+: t := by
  induction t with
  | nil =>
    intro m h1 h14 hp
    have h0 : LIBC_PATCH_REPLACEMENT.drop m = [] := List.prefix_nil.mp hp
    have hlen := congrArg List.length h0
    simp [LIBC_PATCH_REPLACEMENT] at hlen
    omega
  | cons b u ih =>
    intro m h1 h14 hp
    by_cases hP : LIBC_PATCH_PATTERN.isPrefixOf (b :: u) = true
    · rw [pyReplaceAux_pos _ _ _ _ (by decide) hP] at hp
      exfalso
      have hlen : (LIBC_PATCH_REPLACEMENT.drop m).length = 15 - m := by
        simp [LIBC_PATCH_REPLACEMENT]
      have heq := List.prefix_iff_eq_take.mp hp
      rw [hlen, List.take_append_of_le_length
        (by have h15 : LIBC_PATCH_REPLACEMENT.length = 15 := rfl; omega)] at heq
      exact drop_ne_take_of_replacement m (by omega) h1 heq
    · rw [pyReplaceAux_neg _ _ _ _ hP] at hp
      have hm15 : m < LIBC_PATCH_REPLACEMENT.length := by
        have h15 : LIBC_PATCH_REPLACEMENT.length = 15 := rfl
        omega
      have hcons := List.drop_eq_getElem_cons hm15
      rw [hcons] at hp ⊢
      obtain ⟨hb, htail⟩ := List.cons_prefix_cons.mp hp
      by_cases hm : m = 14
      · subst hm
        refine List.cons_prefix_cons.mpr ⟨hb, ?_⟩
        rw [show LIBC_PATCH_REPLACEMENT.drop (14 + 1) = [] from rfl]
        exact List.nil_prefix
      · exact List.cons_prefix_cons.mpr ⟨hb, ih (m + 1) (by omega) (by omega) htail⟩

/-- Inversion of the apply scan for the concrete libc patterns: on content free
of the replacement pattern, replacing every original-pattern occurrence and
then replacing every replacement-pattern occurrence back restores the content
byte for byte. -/
theorem pyReplaceAux_roundtrip :
    ∀ (n : Nat) (c : List Nat), c.length ≤ n →
    ¬ LIBC_PATCH_REPLACEMENT <:+: c →
    pyReplaceAux LIBC_PATCH_REPLACEMENT LIBC_PATCH_PATTERN 0
      (pyReplaceAux LIBC_PATCH_PATTERN LIBC_PATCH_REPLACEMENT 0 c) = c := by
  intro n
  induction n with
  | zero =>
    intro c hc _
    rw [List.length_eq_zero.mp (Nat.le_zero.mp hc)]
    rfl
  | succ n ih =>
    intro c hc hr
    cases c with
    | nil => rfl
    | cons b u =>
      by_cases hP : LIBC_PATCH_PATTERN.isPrefixOf (b :: u) = true
      · rw [pyReplaceAux_pos _ _ _ _ (by decide) hP]
        rw [pyReplaceAux_pos' LIBC_PATCH_REPLACEMENT LIBC_PATCH_PATTERN _ (by decide)
          (by
            intro hx
            exact absurd (congrArg List.length hx) (by
              simp [LIBC_PATCH_REPLACEMENT]))
          (by
            rw [ List.isPrefixOf_iff_prefix]
            exact List.prefix_append _ _)]
        rw [List.drop_left]
        have hPlen : LIBC_PATCH_PATTERN.length = 15 := rfl
        have hrec := ih ((b :: u).drop LIBC_PATCH_PATTERN.length)
          (by
            have hb1 : (b :: u).length ≤ n + 1 := hc
            have hb2 : ((b :: u).drop LIBC_PATCH_PATTERN.length).length
                = (b :: u).length - 15 := by
              rw [List.length_drop, hPlen]
            omega)
          (fun hx => hr (hx.trans ( List.IsSuffix.isInfix
            (List.drop_suffix LIBC_PATCH_PATTERN.length (b :: u)))))
        rw [hrec]
        have hPeq : (b :: u).take LIBC_PATCH_PATTERN.length = LIBC_PATCH_PATTERN :=
          ( List.prefix_iff_eq_take.mp ( List.isPrefixOf_iff_prefix.mp hP)).symm
        calc LIBC_PATCH_PATTERN ++ (b :: u).drop LIBC_PATCH_PATTERN.length
            = (b :: u).take LIBC_PATCH_PATTERN.length
              ++ (b :: u).drop LIBC_PATCH_PATTERN.length := by rw [hPeq]
          _ = b :: u := List.take_append_drop _ _
      · rw [pyReplaceAux_neg _ _ _ _ hP]
        have hnotR : ¬ LIBC_PATCH_REPLACEMENT.isPrefixOf
            (b :: pyReplaceAux LIBC_PATCH_PATTERN LIBC_PATCH_REPLACEMENT 0 u) = true := by
          intro hpre
          rw [ List.isPrefixOf_iff_prefix] at hpre
          rw [show LIBC_PATCH_REPLACEMENT
              = 73 :: LIBC_PATCH_REPLACEMENT.drop 1 from rfl] at hpre
          obtain ⟨hb, htail⟩ := List.cons_prefix_cons.mp hpre
          have hu := drop_prefix_transport u 1 (by omega) (by omega) htail
          apply hr
          apply List.IsPrefix.isInfix
          rw [show LIBC_PATCH_REPLACEMENT = 73 :: LIBC_PATCH_REPLACEMENT.drop 1 from rfl]
          exact List.cons_prefix_cons.mpr ⟨hb, hu⟩
        rw [pyReplaceAux_neg _ _ _ _ hnotR]
        have hru : ¬ LIBC_PATCH_REPLACEMENT <:+: u :=
          fun hx => hr (List.infix_cons hx)
        have hulen : u.length ≤ n := by
          have : (b :: u).length = u.length + 1 := rfl
          omega
        rw [ih u hulen hru]

theorem pyReplace_roundtrip (c : List Nat)
    (hr : containsSub LIBC_PATCH_REPLACEMENT c = false) :
    pyReplace LIBC_PATCH_REPLACEMENT LIBC_PATCH_PATTERN
      (pyReplace LIBC_PATCH_PATTERN LIBC_PATCH_REPLACEMENT c) = c := by
  have hr' : ¬ LIBC_PATCH_REPLACEMENT <:+: c := by
    rw [← containsSub_iff, hr]
    simp
  rw [pyReplace, pyReplace, if_neg (by decide), if_neg (by decide)]
  exact pyReplaceAux_roundtrip c.length c le_rfl hr'

/-- C4: for every file containing the original libc pattern and not the
replacement pattern, if `apply_libc_patch` succeeds on it (status `applied`),
a subsequent `revert_libc_patch` succeeds and restores the file to
byte-for-byte equality with its pre-apply content. -/
theorem apply_then_revert_roundtrip (cb cb' : Bool) (c : List Nat)
    (hs : containsSub LIBC_PATCH_PATTERN c = true)
    (hr : containsSub LIBC_PATCH_REPLACEMENT c = false)
    (happ : (applyLibcFile cb LIBC_PATCH_PATTERN LIBC_PATCH_REPLACEMENT c .ok).status
        = "applied") :
    revertLibcFile cb' LIBC_PATCH_REPLACEMENT LIBC_PATCH_PATTERN
        (applyLibcFile cb LIBC_PATCH_PATTERN LIBC_PATCH_REPLACEMENT c .ok).newContent .ok
      = ⟨c, "reverted", "Patch reverted successfully"⟩ := by
  obtain ⟨e1, _, _, h4, h5⟩ := applyLibcFile_ok_applied happ
  rw [e1]
  have hrt := pyReplace_roundtrip c hr
  simp [revertLibcFile, h5, h4, hrt, hs, hr]

theorem apply_then_revert_roundtrip_witness :
    revertLibcFile true LIBC_PATCH_REPLACEMENT LIBC_PATCH_PATTERN
        (applyLibcFile true LIBC_PATCH_PATTERN LIBC_PATCH_REPLACEMENT
          (selfMagic1 ++ LIBC_PATCH_PATTERN) .ok).newContent .ok
      = ⟨selfMagic1 ++ LIBC_PATCH_PATTERN, "reverted", "Patch reverted successfully"⟩ :=
  apply_then_revert_roundtrip true true (selfMagic1 ++ LIBC_PATCH_PATTERN)
    (by decide) (by decide) (by decide)

/-- C2 counterexample: (i) with `sdk_pair = 7` and `auto_revert_for_high_sdk`
enabled but the `apply_libc_patch` parameter disabled, a run that downgrades
and signs one file invokes neither patch operation — the whole step-3 block is
guarded by the `apply_libc_patch` parameter, so revert also needs it; (ii) with
`sdk_pair = 4` and patching enabled but no ELF files in the input, the function
returns before step 3 and apply is never invoked. -/
theorem libc_threshold_counterexample :
    ((downgradeAndSign
        ⟨fun _ => (true, "ok"), fun _ => true, fun _ => [], fun _ => true, fun _ => [],
          (true, ""), 0⟩
        ⟨7, 0, 0, false, false, false, false, true⟩
        [⟨['a'], elfMagic⟩] []).1.libcAction = LibcAction.none ∧
     (downgradeAndSign
        ⟨fun _ => (true, "ok"), fun _ => true, fun _ => [], fun _ => true, fun _ => [],
          (true, ""), 0⟩
        ⟨7, 0, 0, false, false, false, false, true⟩
        [⟨['a'], elfMagic⟩] []).1.downgrade_successful = 1 ∧
     (downgradeAndSign
        ⟨fun _ => (true, "ok"), fun _ => true, fun _ => [], fun _ => true, fun _ => [],
          (true, ""), 0⟩
        ⟨7, 0, 0, false, false, false, false, true⟩
        [⟨['a'], elfMagic⟩] []).1.signing_successful = 1) ∧
    (downgradeAndSign
        ⟨fun _ => (true, "ok"), fun _ => true, fun _ => [], fun _ => true, fun _ => [],
          (true, ""), 0⟩
        ⟨4, 0, 0, false, false, false, true, true⟩ [] []).1.libcAction
      = LibcAction.none := by
  exact ⟨⟨rfl, rfl, rfl⟩, rfl⟩

/-- C2 amended: provided at least one ELF file is enumerated under the input
directory, step 3 of `downgrade_and_sign` runs `apply_libc_patch` on the output
directory iff the patching parameter is enabled and the SDK pair is at most 6,
and runs `revert_libc_patch` iff the patching parameter is enabled, the pair is
above 6 and auto-revert is enabled; at most one of the two runs per invocation,
and with no ELF files enumerated neither runs. -/
theorem libc_patch_threshold (collab : Collab) (cfg : DSConfig)
    (idir odir : List PFile) :
    (elfTargets idir = [] →
      (downgradeAndSign collab cfg idir odir).1.libcAction = LibcAction.none) ∧
    (elfTargets idir ≠ [] →
      (((downgradeAndSign collab cfg idir odir).1.libcAction = LibcAction.applied)
          ↔ (cfg.apply_libc_patch = true ∧ cfg.sdk_pair ≤ 6)) ∧
      (((downgradeAndSign collab cfg idir odir).1.libcAction = LibcAction.reverted)
          ↔ (cfg.apply_libc_patch = true ∧ ¬ cfg.sdk_pair ≤ 6
              ∧ cfg.auto_revert_for_high_sdk = true))) := by
  constructor
  · intro h
    simp [downgradeAndSign, h]
  · intro h
    have hne : (elfTargets idir).isEmpty = false := by
      cases he : elfTargets idir with
      | nil => exact absurd he h
      | cons a l => rfl
    have haction : (downgradeAndSign collab cfg idir odir).1.libcAction
        = (if cfg.apply_libc_patch then
             if cfg.sdk_pair ≤ 6 then LibcAction.applied
             else if cfg.auto_revert_for_high_sdk then LibcAction.reverted
             else LibcAction.none
           else LibcAction.none) := by
      by_cases hap : cfg.apply_libc_patch = true <;>
        by_cases hsdk : cfg.sdk_pair ≤ 6 <;>
          by_cases hrev : cfg.auto_revert_for_high_sdk = true <;>
            simp [downgradeAndSign, hne, hap, hsdk, hrev]
    rw [haction]
    by_cases hap : cfg.apply_libc_patch = true <;>
      by_cases hsdk : cfg.sdk_pair ≤ 6 <;>
        by_cases hrev : cfg.auto_revert_for_high_sdk = true <;>
          simp [hap, hsdk, hrev]

theorem libc_patch_threshold_witness :
    (downgradeAndSign
        ⟨fun _ => (true, "ok"), fun _ => true, fun _ => [], fun _ => true, fun _ => [],
          (true, ""), 0⟩
        ⟨4, 0, 0, false, false, false, true, true⟩
        [⟨['a'], elfMagic⟩] []).1.libcAction = LibcAction.applied := by
  have h := (libc_patch_threshold
    ⟨fun _ => (true, "ok"), fun _ => true, fun _ => [], fun _ => true, fun _ => [],
      (true, ""), 0⟩
    ⟨4, 0, 0, false, false, false, true, true⟩
    [⟨['a'], elfMagic⟩] []).2 (by decide)
  exact h.1.mpr ⟨rfl, by decide⟩

theorem lookup_eq_none_of_names {β : Type} (tl : List (List Char × β)) (k : List Char)
    (h : ∀ e ∈ tl, ¬ e.1 = k) : tl.lookup k = none := by
  induction tl with
  | nil => rfl
  | cons a tl ih =>
    have hk : (k == a.1) = false :=
      beq_eq_false_iff_ne.mpr (fun he => h a (List.mem_cons_self a tl) he.symm)
    simp only [List.lookup, hk]
    exact ih (fun e he => h e (List.mem_cons_of_mem a he))

theorem signStep_files_shape (collab : Collab) (cfg : DSConfig) (dgOk : List Char → Bool)
    (st : SignState) (a : PFile) :
    ∃ e0, (signStep collab cfg dgOk st a).files = st.files ++ e0
      ∧ ∀ e ∈ e0, e.1 = a.name := by
  by_cases h1 : (!dgOk a.name) = true
  · exact ⟨[(a.name, ⟨false, [], "Skipped due to downgrade failure"⟩)],
      by rw [signStep, if_pos h1], by simp⟩
  · by_cases h2 : (st.out.any (fun g => g.name == a.name) && !cfg.overwrite) = true
    · exact ⟨[], by rw [signStep, if_neg h1, if_pos h2, List.append_nil], by simp⟩
    · exact ⟨[(a.name, ⟨collab.signElf a.name, a.name,
        if collab.signElf a.name then "Success" else "Failed"⟩)],
        by rw [signStep, if_neg h1, if_neg h2], by simp⟩

theorem signLoop_files_shape (collab : Collab) (cfg : DSConfig) (dgOk : List Char → Bool)
    (l : List PFile) : ∀ (st : SignState),
    ∃ tl, (l.foldl (signStep collab cfg dgOk) st).files = st.files ++ tl
      ∧ ∀ e ∈ tl, ∃ f ∈ l, e.1 = f.name := by
  induction l with
  | nil => intro st; exact ⟨[], by simp, by simp⟩
  | cons a l ih =>
    intro st
    obtain ⟨tl, htl, hnames⟩ := ih (signStep collab cfg dgOk st a)
    obtain ⟨e0, he0, hn0⟩ := signStep_files_shape collab cfg dgOk st a
    refine ⟨e0 ++ tl, ?_, ?_⟩
    · rw [List.foldl_cons, htl, he0, List.append_assoc]
    · intro e he
      rcases List.mem_append.mp he with hh | hh
      · exact ⟨a, List.mem_cons_self _ _, hn0 e hh⟩
      · obtain ⟨f, hf, hfe⟩ := hnames e hh
        exact ⟨f, List.mem_cons_of_mem _ hf, hfe⟩

theorem any_congr_names {p q : PFile → Bool} (l : List PFile)
    (h : ∀ a ∈ l, p a = q a) : l.any p = l.any q := by
  induction l with
  | nil => rfl
  | cons a l ih =>
    simp only [List.any_cons, h a (List.mem_cons_self a l)]
    rw [ih (fun x hx => h x (List.mem_cons_of_mem a hx))]

theorem updateDir_any_other (d : List PFile) (n : List Char) (c : List Nat) (m : List Char)
    (hm : (n == m) = false) :
    (updateDir d n c).any (fun g => g.name == m) = d.any (fun g => g.name == m) := by
  rw [updateDir]
  by_cases h : d.any (fun g => g.name == n) = true
  · rw [if_pos h, List.any_map]
    refine any_congr_names d (fun a _ => ?_)
    show ((if (a.name == n) = true then (⟨n, c⟩ : PFile) else a).name == m) = (a.name == m)
    by_cases ha : (a.name == n) = true
    · rw [if_pos ha, beq_iff_eq.mp ha]
    · rw [if_neg ha]
  · rw [if_neg h, List.any_append]
    simp [hm]

theorem signStep_out_any (collab : Collab) (cfg : DSConfig) (dgOk : List Char → Bool)
    (st : SignState) (a : PFile) (m : List Char) (hm : (a.name == m) = false) :
    ((signStep collab cfg dgOk st a).out.any (fun g => g.name == m))
      = (st.out.any (fun g => g.name == m)) := by
  rw [signStep]
  by_cases h1 : (!dgOk a.name) = true
  · rw [if_pos h1]
  · rw [if_neg h1]
    by_cases h2 : (st.out.any (fun g => g.name == a.name) && !cfg.overwrite) = true
    · rw [if_pos h2]
    · rw [if_neg h2]
      show ((if collab.signElf a.name then updateDir st.out a.name
          (collab.signedBytes a.name) else st.out).any (fun g => g.name == m)) = _
      by_cases hs : collab.signElf a.name = true
      · rw [if_pos hs, updateDir_any_other _ _ _ _ hm]
      · rw [if_neg hs]

theorem signLoop_lookup_skip (collab : Collab) (cfg : DSConfig) (dgOk : List Char → Bool)
    (l : List PFile) : ∀ (st : SignState) (a : PFile),
    (l.map PFile.name).Nodup → a ∈ l → dgOk a.name = false →
    st.files.lookup a.name = none →
    ((l.foldl (signStep collab cfg dgOk) st).files).lookup a.name
      = some ⟨false, [], "Skipped due to downgrade failure"⟩ := by
  induction l with
  | nil => intro st a _ ha; cases ha
  | cons f l ih =>
    intro st a hn ha hdg hst
    rw [List.foldl_cons]
    rcases List.mem_cons.mp ha with rfl | hmem
    · have hstep : (signStep collab cfg dgOk st a).files
          = st.files ++ [(a.name, ⟨false, [], "Skipped due to downgrade failure"⟩)] := by
        rw [signStep, if_pos (by simp [hdg])]
      obtain ⟨tl, htl, hnames⟩ :=
        signLoop_files_shape collab cfg dgOk l (signStep collab cfg dgOk st a)
      rw [htl, hstep, List.append_assoc, lookup_append_of_none _ _ _ hst]
      show (((a.name, (⟨false, [], "Skipped due to downgrade failure"⟩ : SignEntry)) :: tl)).lookup
          a.name = _
      simp [List.lookup]
    · have hne : f.name ≠ a.name := by
        intro he
        exact (List.nodup_cons.mp hn).1 (he ▸ List.mem_map_of_mem PFile.name hmem)
      apply ih (signStep collab cfg dgOk st f) a (List.nodup_cons.mp hn).2 hmem hdg
      obtain ⟨e0, he0, hn0⟩ := signStep_files_shape collab cfg dgOk st f
      rw [he0, lookup_append_of_none _ _ _ hst]
      exact lookup_eq_none_of_names _ _ (fun e he => by rw [hn0 e he]; exact hne)

theorem signLoop_lookup_sign (collab : Collab) (cfg : DSConfig) (dgOk : List Char → Bool)
    (l : List PFile) : ∀ (st : SignState) (b : PFile),
    (l.map PFile.name).Nodup → b ∈ l → dgOk b.name = true →
    st.files.lookup b.name = none →
    (cfg.overwrite = true ∨ st.out.any (fun g => g.name == b.name) = false) →
    ((l.foldl (signStep collab cfg dgOk) st).files).lookup b.name
      = some ⟨collab.signElf b.name, b.name,
          if collab.signElf b.name then "Success" else "Failed"⟩ := by
  induction l with
  | nil => intro st b _ hb; cases hb
  | cons f l ih =>
    intro st b hn hb hdg hst hout
    rw [List.foldl_cons]
    rcases List.mem_cons.mp hb with rfl | hmem
    · have hcond : (st.out.any (fun g => g.name == b.name) && !cfg.overwrite) = false := by
        rcases hout with h | h
        · simp [h]
        · simp [h]
      have hstep : (signStep collab cfg dgOk st b).files
          = st.files ++ [(b.name, ⟨collab.signElf b.name, b.name,
              if collab.signElf b.name then "Success" else "Failed"⟩)] := by
        rw [signStep, if_neg (by simp [hdg]), if_neg (by simp [hcond])]
      obtain ⟨tl, htl, hnames⟩ :=
        signLoop_files_shape collab cfg dgOk l (signStep collab cfg dgOk st b)
      rw [htl, hstep, List.append_assoc, lookup_append_of_none _ _ _ hst]
      show (((b.name, (⟨collab.signElf b.name, b.name,
          if collab.signElf b.name then "Success" else "Failed"⟩ : SignEntry)) :: tl)).lookup
          b.name = _
      simp [List.lookup]
    · have hne : f.name ≠ b.name := by
        intro he
        exact (List.nodup_cons.mp hn).1 (he ▸ List.mem_map_of_mem PFile.name hmem)
      apply ih (signStep collab cfg dgOk st f) b (List.nodup_cons.mp hn).2 hmem hdg
      · obtain ⟨e0, he0, hn0⟩ := signStep_files_shape collab cfg dgOk st f
        rw [he0, lookup_append_of_none _ _ _ hst]
        exact lookup_eq_none_of_names _ _ (fun e he => by rw [hn0 e he]; exact hne)
      · rcases hout with h | h
        · exact Or.inl h
        · refine Or.inr ?_
          rw [signStep_out_any collab cfg dgOk st f b.name
            (beq_eq_false_iff_ne.mpr hne)]
          exact h

theorem signLoop_failed_ge (collab : Collab) (cfg : DSConfig) (dgOk : List Char → Bool)
    (l : List PFile) : ∀ (st : SignState),
    st.failed + (l.filter (fun f => !dgOk f.name)).length
      ≤ (l.foldl (signStep collab cfg dgOk) st).failed := by
  induction l with
  | nil => intro st; simp
  | cons f l ih =>
    intro st
    rw [List.foldl_cons, List.filter_cons]
    by_cases h1 : (!dgOk f.name) = true
    · rw [if_pos h1]
      have hst : (signStep collab cfg dgOk st f).failed = st.failed + 1 := by
        rw [signStep, if_pos h1]
      have := ih (signStep collab cfg dgOk st f)
      rw [hst] at this
      simp only [List.length_cons]
      omega
    · rw [if_neg h1]
      have hge : st.failed ≤ (signStep collab cfg dgOk st f).failed := by
        rw [signStep, if_neg h1]
        by_cases h2 : (st.out.any (fun g => g.name == f.name) && !cfg.overwrite) = true
        · rw [if_pos h2]
        · rw [if_neg h2]
          show st.failed ≤ st.failed + (if collab.signElf f.name then 0 else 1)
          omega
      have := ih (signStep collab cfg dgOk st f)
      omega

theorem downgradeAndSign_shape (collab : Collab) (cfg : DSConfig)
    (idir odir : List PFile) (hne : (elfTargets idir).isEmpty = false) :
    (downgradeAndSign collab cfg idir odir).1.downgrade_files
        = (elfTargets idir).map (fun f => (f.name, collab.patchElf f.name)) ∧
    (downgradeAndSign collab cfg idir odir).1.signing_files
        = ((elfTargets idir).foldl (signStep collab cfg (fun n =>
            match ((elfTargets idir).map
                (fun f => (f.name, collab.patchElf f.name))).lookup n with
            | some e => e.1
            | Option.none => false)) ⟨0, 0, [], odir⟩).files ∧
    (downgradeAndSign collab cfg idir odir).1.signing_failed
        = ((elfTargets idir).foldl (signStep collab cfg (fun n =>
            match ((elfTargets idir).map
                (fun f => (f.name, collab.patchElf f.name))).lookup n with
            | some e => e.1
            | Option.none => false)) ⟨0, 0, [], odir⟩).failed := by
  rw [downgradeAndSign]
  simp only [hne, Bool.false_eq_true, if_false]
  refine ⟨?_, ?_, ?_⟩ <;> trivial

/-- C6: in every `downgrade_and_sign` run, a file whose downgrade failed is
never passed to the signer: its signing entry is the fixed skip entry
referencing the downgrade failure — independent of the signer collaborator —
and it is counted in the signing `failed` counter (which is at least the
number of downgrade failures), while a sibling whose downgrade succeeded (and
whose output slot is writable: `overwrite` set or no pre-existing output file)
gets exactly the signer's result. -/
theorem upstream_skip_propagation (collab : Collab) (cfg : DSConfig)
    (idir odir : List PFile)
    (hn : ((elfTargets idir).map PFile.name).Nodup)
    (a b : PFile) (ha : a ∈ elfTargets idir) (hb : b ∈ elfTargets idir)
    (hfa : (collab.patchElf a.name).1 = false)
    (hsb : (collab.patchElf b.name).1 = true)
    (hout : cfg.overwrite = true ∨ odir.any (fun g => g.name == b.name) = false) :
    (downgradeAndSign collab cfg idir odir).1.downgrade_files.lookup a.name
        = some (collab.patchElf a.name) ∧
    (downgradeAndSign collab cfg idir odir).1.signing_files.lookup a.name
        = some ⟨false, [], "Skipped due to downgrade failure"⟩ ∧
    (downgradeAndSign collab cfg idir odir).1.signing_files.lookup b.name
        = some ⟨collab.signElf b.name, b.name,
            if collab.signElf b.name then "Success" else "Failed"⟩ ∧
    ((elfTargets idir).filter (fun f => !(collab.patchElf f.name).1)).length
        ≤ (downgradeAndSign collab cfg idir odir).1.signing_failed := by
  have hne : (elfTargets idir).isEmpty = false := by
    cases he : elfTargets idir with
    | nil => rw [he] at ha; cases ha
    | cons x l => rfl
  obtain ⟨hdg, hsf, hff⟩ := downgradeAndSign_shape collab cfg idir odir hne
  have hdgOk : ∀ f, f ∈ elfTargets idir →
      ((elfTargets idir).map (fun g => (g.name, collab.patchElf g.name))).lookup f.name
        = some (collab.patchElf f.name) :=
    fun f hf => lookup_map_eq (β := Bool × String) hn hf (fun x => collab.patchElf x.name)
  refine ⟨?_, ?_, ?_, ?_⟩
  · rw [hdg]
    exact lookup_map_eq hn ha _
  · rw [hsf]
    exact signLoop_lookup_skip collab cfg _ (elfTargets idir) ⟨0, 0, [], odir⟩ a hn ha
      (by simp only [hdgOk a ha]; exact hfa) rfl
  · rw [hsf]
    exact signLoop_lookup_sign collab cfg _ (elfTargets idir) ⟨0, 0, [], odir⟩ b hn hb
      (by simp only [hdgOk b hb]; exact hsb) rfl hout
  · rw [hff]
    have hfe : (elfTargets idir).filter (fun f => !(collab.patchElf f.name).1)
        = (elfTargets idir).filter (fun f => !(fun n =>
            match ((elfTargets idir).map
                (fun g => (g.name, collab.patchElf g.name))).lookup n with
            | some e => e.1
            | Option.none => false) f.name) := by
      refine List.filter_congr (fun f hf => ?_)
      simp only [hdgOk f hf]
    rw [hfe]
    have := signLoop_failed_ge collab cfg (fun n =>
        match ((elfTargets idir).map
            (fun g => (g.name, collab.patchElf g.name))).lookup n with
        | some e => e.1
        | Option.none => false) (elfTargets idir) ⟨0, 0, [], odir⟩
    simpa using this

theorem upstream_skip_propagation_witness :
    (downgradeAndSign
        ⟨fun n => (n == ['b'], "m"), fun _ => true, fun _ => [], fun _ => true, fun _ => [],
          (true, ""), 0⟩
        ⟨4, 0, 0, false, false, false, true, true⟩
        [⟨['a'], elfMagic⟩, ⟨['b'], elfMagic⟩] []).1.downgrade_files.lookup ['a']
      = some (false, "m") ∧
    (downgradeAndSign
        ⟨fun n => (n == ['b'], "m"), fun _ => true, fun _ => [], fun _ => true, fun _ => [],
          (true, ""), 0⟩
        ⟨4, 0, 0, false, false, false, true, true⟩
        [⟨['a'], elfMagic⟩, ⟨['b'], elfMagic⟩] []).1.signing_files.lookup ['a']
      = some ⟨false, [], "Skipped due to downgrade failure"⟩ ∧
    (downgradeAndSign
        ⟨fun n => (n == ['b'], "m"), fun _ => true, fun _ => [], fun _ => true, fun _ => [],
          (true, ""), 0⟩
        ⟨4, 0, 0, false, false, false, true, true⟩
        [⟨['a'], elfMagic⟩, ⟨['b'], elfMagic⟩] []).1.signing_files.lookup ['b']
      = some ⟨true, ['b'], "Success"⟩ ∧
    ((elfTargets [⟨['a'], elfMagic⟩, ⟨['b'], elfMagic⟩]).filter
        (fun f => !((fun (n : List Char) => (n == ['b'], "m")) f.name).1)).length
      ≤ (downgradeAndSign
          ⟨fun n => (n == ['b'], "m"), fun _ => true, fun _ => [], fun _ => true, fun _ => [],
            (true, ""), 0⟩
          ⟨4, 0, 0, false, false, false, true, true⟩
          [⟨['a'], elfMagic⟩, ⟨['b'], elfMagic⟩] []).1.signing_failed :=
  upstream_skip_propagation
    ⟨fun n => (n == ['b'], "m"), fun _ => true, fun _ => [], fun _ => true, fun _ => [],
      (true, ""), 0⟩
    ⟨4, 0, 0, false, false, false, true, true⟩
    [⟨['a'], elfMagic⟩, ⟨['b'], elfMagic⟩] []
    (by decide) ⟨['a'], elfMagic⟩ ⟨['b'], elfMagic⟩ (by decide) (by decide)
    (by decide) (by decide) (Or.inr rfl)

theorem decryptFiles_congr (collab₂ collab : Collab) (ow : Bool) (idir odir : List PFile)
    (h1 : collab₂.decodeSelf = collab.decodeSelf)
    (h2 : collab₂.decodedBytes = collab.decodedBytes) :
    decryptFiles collab₂ ow idir odir = decryptFiles collab ow idir odir := by
  have hstep : decryptStep collab₂ ow = decryptStep collab ow := by
    funext st f
    rw [decryptStep, decryptStep, h1, h2]
  rw [decryptFiles, decryptFiles, hstep]

/-- C5: when zero files decrypt successfully, `process_full_pipeline` aborts:
it returns the decrypt report together with the literal all-zero downstream
section carrying the `Pipeline aborted` marker, the downstream stage is never
invoked (the result is unchanged under any replacement of the downgrade/sign
collaborators and configuration agreeing on the decrypt inputs), for a
zero-SignedContainer input the decrypt counters are `{successful 0, failed 0}`,
and the temporary directory does not exist when the call returns — also when
the body raises. -/
theorem pipeline_abort_on_empty_decrypt (collab : Collab) (cfg : DSConfig)
    (idir odir : List PFile) (e : String)
    (h0 : (decryptFiles collab cfg.overwrite idir []).1.successful = 0) :
    processFullPipeline collab cfg idir odir Option.none
        = (Except.ok (.abortedRun (decryptFiles collab cfg.overwrite idir []).1
            abortedDownstream), false) ∧
    (∀ (collab₂ : Collab) (cfg₂ : DSConfig) (odir₂ : List PFile),
      collab₂.decodeSelf = collab.decodeSelf → collab₂.decodedBytes = collab.decodedBytes →
      cfg₂.overwrite = cfg.overwrite →
      processFullPipeline collab₂ cfg₂ idir odir₂ Option.none
        = processFullPipeline collab cfg idir odir Option.none) ∧
    (selfTargets idir = [] →
      (decryptFiles collab cfg.overwrite idir []).1 = ⟨0, 0, []⟩) ∧
    abortedDownstream.successful = 0 ∧ abortedDownstream.failed = 0 ∧
    abortedDownstream.files = [] ∧ abortedDownstream.libc_applied = 0 ∧
    abortedDownstream.libc_reverted = 0 ∧ abortedDownstream.fakelib_copies_created = 0 ∧
    abortedDownstream.fakelib_message = "Pipeline aborted" ∧
    (processFullPipeline collab cfg idir odir (some e)).2 = false := by
  refine ⟨?_, ?_, ?_, rfl, rfl, rfl, rfl, rfl, rfl, rfl, rfl⟩
  · simp [processFullPipeline, h0]
  · intro collab₂ cfg₂ odir₂ hd hb how
    have hdec : decryptFiles collab₂ cfg₂.overwrite idir []
        = decryptFiles collab cfg.overwrite idir [] := by
      rw [how]
      exact decryptFiles_congr collab₂ collab cfg.overwrite idir [] hd hb
    simp [processFullPipeline, hdec, h0]
  · intro hself
    simp [decryptFiles, hself]

theorem pipeline_abort_on_empty_decrypt_witness :
    processFullPipeline
        ⟨fun _ => (true, "ok"), fun _ => true, fun _ => [], fun _ => true, fun _ => [],
          (true, ""), 0⟩
        ⟨4, 0, 0, false, false, false, true, true⟩ [⟨['x'], [1, 2, 3]⟩] [] Option.none
        = (Except.ok (.abortedRun (decryptFiles
            ⟨fun _ => (true, "ok"), fun _ => true, fun _ => [], fun _ => true, fun _ => [],
              (true, ""), 0⟩ false [⟨['x'], [1, 2, 3]⟩] []).1
            abortedDownstream), false) ∧
    (selfTargets [⟨['x'], [1, 2, 3]⟩] = [] →
      (decryptFiles
          ⟨fun _ => (true, "ok"), fun _ => true, fun _ => [], fun _ => true, fun _ => [],
            (true, ""), 0⟩ false [⟨['x'], [1, 2, 3]⟩] []).1 = ⟨0, 0, []⟩) ∧
    (processFullPipeline
        ⟨fun _ => (true, "ok"), fun _ => true, fun _ => [], fun _ => true, fun _ => [],
          (true, ""), 0⟩
        ⟨4, 0, 0, false, false, false, true, true⟩ [⟨['x'], [1, 2, 3]⟩] []
        (some "boom")).2 = false := by
  have h := pipeline_abort_on_empty_decrypt
    ⟨fun _ => (true, "ok"), fun _ => true, fun _ => [], fun _ => true, fun _ => [],
      (true, ""), 0⟩
    ⟨4, 0, 0, false, false, false, true, true⟩ [⟨['x'], [1, 2, 3]⟩] [] "boom" (by decide)
  exact ⟨h.1, h.2.2.1, h.2.2.2.2.2.2.2.2.2.2⟩
